import Mathlib

/-!
Verification of the Godot CNode protocol engine (`src/godot_cnode.cpp`) against
its natural-language specification.

The development shallowly embeds the code's term codec (`variant_to_bert`,
`bert_to_variant`), the message-session layer (`process_message`,
`handle_call`, `handle_cast`, `send_reply`) and — modelled from the spec,
because the vendored erl_interface sources are not in the repository — the
`ei_*` wire primitives (Erlang external term format) and the `ei_accept`
handshake state machine.

Wire bytes are `List Nat` with every byte below 256 by construction.  Doubles
are represented by the 64-bit IEEE-754 bit patterns that are written to /
read from the wire, which matches the spec's "floating-point values are
compared bitwise-exact" convention.
-/

namespace GodotCNode

/-! ## Byte-order helpers (big-endian fields of the external term format) -/

/-- Big-endian 2-byte encoding of `n` (for `n < 2^16`). -/
def be16 (n : Nat) : List Nat := [n / 256 % 256, n % 256]

/-- Big-endian 4-byte encoding of `n` (for `n < 2^32`). -/
def be32 (n : Nat) : List Nat :=
  [n / 16777216 % 256, n / 65536 % 256, n / 256 % 256, n % 256]

/-- Big-endian 8-byte encoding of `n` (for `n < 2^64`). -/
def be64 (n : Nat) : List Nat := be32 (n / 4294967296) ++ be32 n

/-- Little-endian byte value (digits of `ERL_SMALL_BIG_EXT`). -/
def leVal : List Nat → Nat
  | [] => 0
  | b :: r => b + 256 * leVal r

/-- Minimal little-endian digits of `n` for `n ≤ 2^64` (the widest magnitude
`ei_encode_longlong` ever emits). -/
def leDigits (n : Nat) : List Nat :=
  (((List.range 9).map (fun i => n / 256 ^ i % 256)).reverse.dropWhile (· = 0)).reverse

/-- Contents of a NUL-terminated C string built from these bytes: everything
up to the first zero byte.  `ei_decode_atom`/`ei_decode_string` copy the wire
bytes into a `char` buffer and NUL-terminate it; later `strcmp`/`String::utf8`
reads stop at the first NUL. -/
def cstr (s : List Nat) : List Nat := s.takeWhile (· ≠ 0)

/-! ## Atom spellings used by the engine (ASCII byte lists) -/

/-- ASCII bytes of `"nil"`. -/
def atom_nil : List Nat := [110, 105, 108]

/-- ASCII bytes of `"true"`. -/
def atom_true : List Nat := [116, 114, 117, 101]

/-- ASCII bytes of `"false"`. -/
def atom_false : List Nat := [102, 97, 108, 115, 101]

/-- ASCII bytes of `"vector2"`. -/
def atom_vector2 : List Nat := [118, 101, 99, 116, 111, 114, 50]

/-- ASCII bytes of `"vector3"`. -/
def atom_vector3 : List Nat := [118, 101, 99, 116, 111, 114, 51]

/-- ASCII bytes of `"color"`. -/
def atom_color : List Nat := [99, 111, 108, 111, 114]

/-- ASCII bytes of `"dictionary"`. -/
def atom_dictionary : List Nat := [100, 105, 99, 116, 105, 111, 110, 97, 114, 121]

/-- ASCII bytes of `"object"`. -/
def atom_object : List Nat := [111, 98, 106, 101, 99, 116]

/-- ASCII bytes of `"unsupported"`. -/
def atom_unsupported : List Nat := [117, 110, 115, 117, 112, 112, 111, 114, 116, 101, 100]

/-- ASCII bytes of `"error"`. -/
def atom_error : List Nat := [101, 114, 114, 111, 114]

/-- ASCII bytes of `"ok"`. -/
def atom_ok : List Nat := [111, 107]

/-- ASCII bytes of `"$gen_call"`. -/
def atom_dollar_gen_call : List Nat := [36, 103, 101, 110, 95, 99, 97, 108, 108]

/-- ASCII bytes of `"$gen_cast"`. -/
def atom_dollar_gen_cast : List Nat := [36, 103, 101, 110, 95, 99, 97, 115, 116]

/-- ASCII bytes of `"rex"`. -/
def atom_rex : List Nat := [114, 101, 120]

/-- ASCII bytes of `"godot"`. -/
def atom_godot : List Nat := [103, 111, 100, 111, 116]

/-- ASCII bytes of `"erlang"`. -/
def atom_erlang : List Nat := [101, 114, 108, 97, 110, 103]

/-- ASCII bytes of `"call_method"`. -/
def atom_call_method : List Nat := [99, 97, 108, 108, 95, 109, 101, 116, 104, 111, 100]

/-- ASCII bytes of `"get_property"`. -/
def atom_get_property : List Nat := [103, 101, 116, 95, 112, 114, 111, 112, 101, 114, 116, 121]

/-- ASCII bytes of `"set_property"`. -/
def atom_set_property : List Nat := [115, 101, 116, 95, 112, 114, 111, 112, 101, 114, 116, 121]

/-- ASCII bytes of `"node"`. -/
def atom_node : List Nat := [110, 111, 100, 101]

/-- ASCII bytes of `"nodes"`. -/
def atom_nodes : List Nat := [110, 111, 100, 101, 115]

/-- ASCII bytes of `"invalid_request_format"`. -/
def atom_invalid_request_format : List Nat :=
  [105, 110, 118, 97, 108, 105, 100, 95, 114, 101, 113, 117, 101, 115, 116, 95, 102, 111, 114, 109, 97, 116]

/-- ASCII bytes of `"invalid_module"`. -/
def atom_invalid_module : List Nat :=
  [105, 110, 118, 97, 108, 105, 100, 95, 109, 111, 100, 117, 108, 101]

/-- ASCII bytes of `"invalid_function"`. -/
def atom_invalid_function : List Nat :=
  [105, 110, 118, 97, 108, 105, 100, 95, 102, 117, 110, 99, 116, 105, 111, 110]

/-- ASCII bytes of `"insufficient_arguments"`. -/
def atom_insufficient_arguments : List Nat :=
  [105, 110, 115, 117, 102, 102, 105, 99, 105, 101, 110, 116, 95, 97, 114, 103, 117, 109, 101, 110, 116, 115]

/-- ASCII bytes of `"object_not_found"`. -/
def atom_object_not_found : List Nat :=
  [111, 98, 106, 101, 99, 116, 95, 110, 111, 116, 95, 102, 111, 117, 110, 100]

/-- ASCII bytes of `"unknown_function"`. -/
def atom_unknown_function : List Nat :=
  [117, 110, 107, 110, 111, 119, 110, 95, 102, 117, 110, 99, 116, 105, 111, 110]

/-- ASCII bytes of `"unknown_module"`. -/
def atom_unknown_module : List Nat :=
  [117, 110, 107, 110, 111, 119, 110, 95, 109, 111, 100, 117, 108, 101]

/-! ## The dynamic value model (Godot `Variant` as used by the codec)

`EVariant` mirrors the `Variant` cases `variant_to_bert` switches on:
NIL, BOOL, INT, FLOAT, STRING, ARRAY, DICTIONARY, VECTOR2, VECTOR3, COLOR,
OBJECT and the fallback for unsupported types.  Strings are UTF-8 byte lists;
float-valued components are IEEE-754 double bit patterns.  `EList`/`EPairs`
are ordinary cons lists, kept as separate mutual inductives so that
structural recursion and decidable equality work on this Lean version. -/

mutual

inductive EVariant where
  | nil
  | bool (b : Bool)
  | int (i : Int)
  | float (bits : Nat)
  | str (s : List Nat)
  | list (xs : EList)
  | dict (ps : EPairs)
  | vector2 (x y : Nat)
  | vector3 (x y z : Nat)
  | color (r g b a : Nat)
  | object (cls : List Nat) (id : Int)
  | unsupported (ty : List Nat)
deriving DecidableEq

inductive EList where
  | nil
  | cons (x : EVariant) (xs : EList)
deriving DecidableEq

inductive EPairs where
  | nil
  | cons (k v : EVariant) (ps : EPairs)
deriving DecidableEq

end

/-- Length of an `EList` (the `Array::size()` of the embedded Godot array). -/
def elen : EList → Nat
  | .nil => 0
  | .cons _ xs => 1 + elen xs

/-- Number of key/value pairs (the `Dictionary` key count). -/
def plen : EPairs → Nat
  | .nil => 0
  | .cons _ _ ps => 1 + plen ps

/-- Element access `args[i]` (only used after a size check, like the C code). -/
def elGet : EList → Nat → EVariant
  | .nil, _ => .nil
  | .cons x _, 0 => x
  | .cons _ xs, n + 1 => elGet xs n

/-- Godot `Dictionary` assignment `dict[key] = value`: replaces the value of
an existing key in place, otherwise appends the new pair. -/
def dictSet : EPairs → EVariant → EVariant → EPairs
  | .nil, key, val => .cons key val .nil
  | .cons k v ps, key, val =>
    if k = key then .cons k val ps else .cons k v (dictSet ps key val)

/-! ## Encoding primitives (`ei_x_encode_*`, modelled from the Erlang external
term format; the vendored erl_interface sources are not part of `src/`). -/

/-- `ei_x_encode_atom`: modern erl_interface emits `SMALL_ATOM_UTF8_EXT`
(tag 119, 1-byte length) for the short ASCII atoms this engine produces. -/
def eiEncodeAtom (s : List Nat) : List Nat := 119 :: s.length :: s

/-- `ei_x_encode_long` / `ei_encode_longlong`: `SMALL_INTEGER_EXT` for
0..255, `ERL_INTEGER_EXT` (4-byte two's complement) within the classic
28-bit small-integer range `ERL_MIN .. ERL_MAX`, otherwise
`ERL_SMALL_BIG_EXT` with minimal little-endian digits. -/
def eiEncodeLong (p : Int) : List Nat :=
  if 0 ≤ p ∧ p < 256 then [97, p.toNat]
  else if -134217728 ≤ p ∧ p ≤ 134217727 then 98 :: be32 (p % 4294967296).toNat
  else
    let ds := leDigits p.natAbs
    110 :: ds.length :: (if p < 0 then 1 else 0) :: ds

/-- `ei_x_encode_double`: `NEW_FLOAT_EXT` (tag 70), 8 bytes big-endian IEEE-754. -/
def eiEncodeDouble (bits : Nat) : List Nat := 70 :: be64 bits

/-- `ei_x_encode_string`: the empty string is the empty list (`ERL_NIL_EXT`);
up to 65535 bytes use `ERL_STRING_EXT`; longer strings become a list of
small integers. -/
def eiEncodeString (s : List Nat) : List Nat :=
  if s.length = 0 then [106]
  else if s.length ≤ 65535 then 107 :: be16 s.length ++ s
  else 108 :: be32 s.length ++ (s.map (fun b => [97, b % 256])).flatten ++ [106]

/-- `ei_x_encode_tuple_header`: `SMALL_TUPLE_EXT` up to arity 255, else
`LARGE_TUPLE_EXT`. -/
def eiEncodeTupleHeader (n : Nat) : List Nat :=
  if n ≤ 255 then [104, n] else 105 :: be32 n

/-- `ei_x_encode_list_header`: arity 0 is emitted as `ERL_NIL_EXT`, positive
arities as `ERL_LIST_EXT` with a 4-byte count. -/
def eiEncodeListHeader (n : Nat) : List Nat :=
  if n = 0 then [106] else 108 :: be32 n

/-- `ei_x_encode_empty_list`: the `ERL_NIL_EXT` list terminator. -/
def eiEncodeEmptyList : List Nat := [106]

/-- `ei_x_encode_map_header`: `ERL_MAP_EXT` (tag 116) with a 4-byte pair count. -/
def eiEncodeMapHeader (n : Nat) : List Nat := 116 :: be32 n

/-! ## `variant_to_bert` (godot_cnode.cpp lines 253-356) -/

mutual

/-- `variant_to_bert`: encodes one `Variant` into the wire term format.
Encoding never fails; unsupported variants are encoded as the tagged
`{unsupported, TypeName}` tuple.  A non-null `Object` is encoded as
`{object, ClassName, InstanceId}` (a null object pointer would encode as the
atom `nil`, which the `object` constructor cannot represent — the embedded
`object` case is the non-null branch). -/
def variantToBert : EVariant → List Nat
  | .nil => eiEncodeAtom atom_nil
  | .bool b => eiEncodeAtom (if b then atom_true else atom_false)
  | .int i => eiEncodeLong i
  | .float bits => eiEncodeDouble bits
  | .str s => eiEncodeString s
  | .vector2 x y =>
    eiEncodeTupleHeader 3 ++ eiEncodeAtom atom_vector2 ++
      eiEncodeDouble x ++ eiEncodeDouble y
  | .vector3 x y z =>
    eiEncodeTupleHeader 4 ++ eiEncodeAtom atom_vector3 ++
      eiEncodeDouble x ++ eiEncodeDouble y ++ eiEncodeDouble z
  | .color r g b a =>
    eiEncodeTupleHeader 5 ++ eiEncodeAtom atom_color ++
      eiEncodeDouble r ++ eiEncodeDouble g ++ eiEncodeDouble b ++ eiEncodeDouble a
  | .list xs => eiEncodeListHeader (elen xs) ++ encodeElems xs ++ eiEncodeEmptyList
  | .dict ps => eiEncodeMapHeader (plen ps) ++ encodePairs ps
  | .object cls id =>
    eiEncodeTupleHeader 3 ++ eiEncodeAtom atom_object ++
      eiEncodeString cls ++ eiEncodeLong id
  | .unsupported ty =>
    eiEncodeTupleHeader 2 ++ eiEncodeAtom atom_unsupported ++ eiEncodeString ty

/-- The `for` loop over `Array` elements inside the ARRAY case. -/
def encodeElems : EList → List Nat
  | .nil => []
  | .cons x xs => variantToBert x ++ encodeElems xs

/-- The loop over `Dictionary` keys inside the DICTIONARY case (key then
value, in key order). -/
def encodePairs : EPairs → List Nat
  | .nil => []
  | .cons k v ps => variantToBert k ++ variantToBert v ++ encodePairs ps

end

/-! ## Decoding primitives (`ei_decode_*` / `ei_get_type`)

The primitives consume from the front of the remaining byte list (the C
`*index` cursor is the number of bytes already consumed).  They have three
outcomes, mirroring the C behavior: success, an in-bounds parse failure
(`ei_*` returns -1 and leaves `*index` unchanged), and a read past the end
of the supplied bytes — the erl_interface decode functions take no buffer
length and read length/payload bytes unconditionally, so on truncated input
they read out of bounds; `Prim.oob` records that event. -/

inductive Prim (α : Type) where
  | ok (a : α) (rest : List Nat)
  | fail
  | oob
deriving DecidableEq

/-- `ei_decode_version`: succeeds exactly on the version marker byte 131. -/
def eiDecodeVersion : List Nat → Prim Unit
  | [] => .oob
  | b :: rest => if b = 131 then .ok () rest else .fail

/-- `ei_get_type`: peeks at the tag byte and its immediate length field
without consuming input.  All atom spellings are reported as `ERL_ATOM_EXT`
(100) and `SMALL_INTEGER` as `ERL_INTEGER_EXT` (98), `NEW_FLOAT` as
`ERL_FLOAT_EXT` (99); other tags are reported as themselves. -/
def eiGetType (buf : List Nat) : Option (Nat × Nat) :=
  match buf with
  | [] => none
  | t :: rest =>
    if t = 115 ∨ t = 119 then
      match rest with
      | l :: _ => some (100, l)
      | [] => none
    else if t = 100 ∨ t = 118 then
      match rest with
      | a :: b :: _ => some (100, a * 256 + b)
      | _ => none
    else if t = 97 ∨ t = 98 then some (98, 0)
    else if t = 70 ∨ t = 99 then some (99, 0)
    else if t = 107 then
      match rest with
      | a :: b :: _ => some (107, a * 256 + b)
      | _ => none
    else if t = 108 ∨ t = 105 ∨ t = 111 ∨ t = 116 then
      match rest with
      | a :: b :: c :: d :: _ => some (t, ((a * 256 + b) * 256 + c) * 256 + d)
      | _ => none
    else if t = 104 ∨ t = 110 then
      match rest with
      | l :: _ => some (t, l)
      | [] => none
    else some (t, 0)

/-- `ei_decode_atom`: accepts the four atom spellings (tags 100, 115, 118,
119); fails on a length above `MAXATOMLEN`-1 = 255.  The observable value is
the NUL-terminated copy in the caller's `char` buffer. -/
def eiDecodeAtom (buf : List Nat) : Prim (List Nat) :=
  match buf with
  | [] => .oob
  | t :: rest =>
    if t = 119 ∨ t = 115 then
      match rest with
      | [] => .oob
      | l :: rest2 =>
        if rest2.length < l then .oob
        else .ok (cstr (rest2.take l)) (rest2.drop l)
    else if t = 100 ∨ t = 118 then
      match rest with
      | a :: b :: rest2 =>
        let l := a * 256 + b
        if 255 < l then .fail
        else if rest2.length < l then .oob
        else .ok (cstr (rest2.take l)) (rest2.drop l)
      | _ => .oob
    else .fail

/-- `ei_decode_long` (64-bit build, same as `ei_decode_longlong`): accepts
small integers, 4-byte two's-complement integers, and small bignums of at
most 8 digit bytes whose magnitude fits a signed 64-bit value. -/
def eiDecodeLong (buf : List Nat) : Prim Int :=
  match buf with
  | [] => .oob
  | t :: rest =>
    if t = 97 then
      match rest with
      | [] => .oob
      | b :: r => .ok (Int.ofNat b) r
    else if t = 98 then
      match rest with
      | a :: b :: c :: d :: r =>
        let n := ((a * 256 + b) * 256 + c) * 256 + d
        .ok (if n < 2147483648 then (n : Int) else (n : Int) - 4294967296) r
      | _ => .oob
    else if t = 110 then
      match rest with
      | len :: sign :: r =>
        if 8 < len then .fail
        else if r.length < len then .oob
        else
          let mag := leVal (r.take len)
          if sign = 0 then
            if mag < 9223372036854775808 then .ok (mag : Int) (r.drop len) else .fail
          else
            if mag ≤ 9223372036854775808 then .ok (-(mag : Int)) (r.drop len) else .fail
      | _ => .oob
    else .fail

/-- `ei_decode_double`: `NEW_FLOAT_EXT` carries the IEEE-754 bit pattern in
8 big-endian bytes.  The legacy 31-byte text form (`ERL_FLOAT_EXT`, tag 99)
is parsed with `sscanf` in C; it is never produced by any encoder in this
engine and is treated as a parse failure here. -/
def eiDecodeDouble (buf : List Nat) : Prim Nat :=
  match buf with
  | [] => .oob
  | t :: rest =>
    if t = 70 then
      match rest with
      | b0 :: b1 :: b2 :: b3 :: b4 :: b5 :: b6 :: b7 :: r =>
        .ok (((((((b0 * 256 + b1) * 256 + b2) * 256 + b3) * 256 + b4) * 256 + b5)
              * 256 + b6) * 256 + b7) r
      | _ => .oob
    else .fail

/-- `ei_decode_tuple_header`: `SMALL_TUPLE_EXT` (1-byte arity) or
`LARGE_TUPLE_EXT` (4-byte arity). -/
def eiDecodeTupleHeader (buf : List Nat) : Prim Nat :=
  match buf with
  | [] => .oob
  | t :: rest =>
    if t = 104 then
      match rest with
      | [] => .oob
      | l :: r => .ok l r
    else if t = 105 then
      match rest with
      | a :: b :: c :: d :: r => .ok (((a * 256 + b) * 256 + c) * 256 + d) r
      | _ => .oob
    else .fail

/-- `ei_decode_list_header`: `ERL_LIST_EXT` with a 4-byte count, or the
`ERL_NIL_EXT` empty list (arity 0). -/
def eiDecodeListHeader (buf : List Nat) : Prim Nat :=
  match buf with
  | [] => .oob
  | t :: rest =>
    if t = 108 then
      match rest with
      | a :: b :: c :: d :: r => .ok (((a * 256 + b) * 256 + c) * 256 + d) r
      | _ => .oob
    else if t = 106 then .ok 0 rest
    else .fail

/-! ## `bert_to_variant` (godot_cnode.cpp lines 131-250)

The decoder returns one of:
* `ok v rest` — a value, with the unconsumed tail (bytes consumed is the
  difference of lengths, hence never more than the input);
* `err rest` — the `return Variant(); // Error` exits, with the cursor
  wherever the failed branch left it (the C caller receives a default NIL
  `Variant` and an unspecified amount of consumed input);
* `oob` — some primitive read past the end of the supplied bytes;
* `ub` — the C code proceeds with an uninitialized stack value (ignored
  `ei_decode_double`/`ei_decode_long`/`ei_decode_atom` failures, or
  `ei_decode_string` overflowing the fixed 256-byte stack buffer);
* `nofuel` — fuel exhaustion, a modelling artifact only: the fuel bounds the
  number of recursive element decodes, and every theorem below either
  supplies sufficient fuel or conditions on a non-`nofuel` outcome. -/

inductive Dec where
  | ok (v : EVariant) (rest : List Nat)
  | err (rest : List Nat)
  | oob
  | ub
  | nofuel
deriving DecidableEq

/-- Result of the list-element loop. -/
inductive DecL where
  | ok (vs : EList) (rest : List Nat)
  | oob
  | ub
  | nofuel
deriving DecidableEq

/-- Result of the dictionary-pair loop. -/
inductive DecP where
  | ok (ps : EPairs) (rest : List Nat)
  | oob
  | ub
  | nofuel
deriving DecidableEq

/-- The `ERL_STRING_EXT` case of `bert_to_variant`: `ei_decode_string` into
the fixed 256-byte stack buffer `string_buf` (overflowing it for payloads of
256 bytes or more — `Dec.ub`), then `String::utf8` on the NUL-terminated
copy. -/
def decString (buf : List Nat) : Dec :=
  match buf with
  | _ :: a :: b :: rest =>
    let len := a * 256 + b
    if 255 < len then .ub
    else if rest.length < len then .oob
    else .ok (.str (cstr (rest.take len))) (rest.drop len)
  | _ => .oob

mutual

/-- `bert_to_variant` with `skip_version = true` (the form used at every
call site inside the message handlers): the `ei_get_type` switch. -/
def decT : Nat → List Nat → Dec
  | 0, _ => .nofuel
  | fuel + 1, buf =>
    match eiGetType buf with
    | none => .oob
    | some (ty, _len) =>
      if ty = 100 then
        match eiDecodeAtom buf with
        | .ok a rest =>
          if a = atom_nil then .ok .nil rest
          else if a = atom_true then .ok (.bool true) rest
          else if a = atom_false then .ok (.bool false) rest
          else .ok (.str a) rest
        | .fail => .ub
        | .oob => .oob
      else if ty = 98 then
        match eiDecodeLong buf with
        | .ok i rest => .ok (.int i) rest
        | .fail => .err buf
        | .oob => .oob
      else if ty = 99 then
        match eiDecodeDouble buf with
        | .ok bits rest => .ok (.float bits) rest
        | .fail => .err buf
        | .oob => .oob
      else if ty = 107 then decString buf
      else if ty = 108 then
        match eiDecodeListHeader buf with
        | .ok arity rest =>
          if arity = 0 then
            match eiGetType rest with
            | none => .oob
            | some (t2, _) =>
              if t2 = 106 then .ok (.list .nil) (rest.drop 1) else .ok (.list .nil) rest
          else
            match decElems fuel arity rest with
            | .ok vs rest2 =>
              match eiGetType rest2 with
              | none => .oob
              | some (t2, _) =>
                if t2 = 106 then .ok (.list vs) (rest2.drop 1) else .ok (.list vs) rest2
            | .oob => .oob
            | .ub => .ub
            | .nofuel => .nofuel
        | .fail => .err buf
        | .oob => .oob
      else if ty = 104 ∨ ty = 105 then
        match eiDecodeTupleHeader buf with
        | .ok arity rest =>
          if arity = 0 then .err rest
          else
            match eiDecodeAtom rest with
            | .ok a rest2 =>
              if a = atom_vector2 ∧ arity = 3 then
                match eiDecodeDouble rest2 with
                | .ok x r3 =>
                  match eiDecodeDouble r3 with
                  | .ok y r4 => .ok (.vector2 x y) r4
                  | .fail => .ub
                  | .oob => .oob
                | .fail => .ub
                | .oob => .oob
              else if a = atom_vector3 ∧ arity = 4 then
                match eiDecodeDouble rest2 with
                | .ok x r3 =>
                  match eiDecodeDouble r3 with
                  | .ok y r4 =>
                    match eiDecodeDouble r4 with
                    | .ok z r5 => .ok (.vector3 x y z) r5
                    | .fail => .ub
                    | .oob => .oob
                  | .fail => .ub
                  | .oob => .oob
                | .fail => .ub
                | .oob => .oob
              else if a = atom_color ∧ arity = 5 then
                match eiDecodeDouble rest2 with
                | .ok r r3 =>
                  match eiDecodeDouble r3 with
                  | .ok g r4 =>
                    match eiDecodeDouble r4 with
                    | .ok b r5 =>
                      match eiDecodeDouble r5 with
                      | .ok al r6 => .ok (.color r g b al) r6
                      | .fail => .ub
                      | .oob => .oob
                    | .fail => .ub
                    | .oob => .oob
                  | .fail => .ub
                  | .oob => .oob
                | .fail => .ub
                | .oob => .oob
              else if a = atom_dictionary ∧ arity = 2 then
                match eiDecodeLong rest2 with
                | .ok n r3 =>
                  match decPairs fuel n.toNat .nil r3 with
                  | .ok ps r4 => .ok (.dict ps) r4
                  | .oob => .oob
                  | .ub => .ub
                  | .nofuel => .nofuel
                | .fail => .ub
                | .oob => .oob
              else .err rest2
            | .fail => .err rest
            | .oob => .oob
        | .fail => .err buf
        | .oob => .oob
      else if ty = 106 then .ok .nil buf.tail
      else .err buf

/-- The ARRAY element loop: a failed element decode pushes the default NIL
`Variant` into the array and the loop continues at whatever cursor position
the failure left. -/
def decElems : Nat → Nat → List Nat → DecL
  | 0, _, _ => .nofuel
  | _ + 1, 0, buf => .ok .nil buf
  | fuel + 1, n + 1, buf =>
    match decT fuel buf with
    | .ok v rest =>
      match decElems fuel n rest with
      | .ok vs rest2 => .ok (.cons v vs) rest2
      | .oob => .oob
      | .ub => .ub
      | .nofuel => .nofuel
    | .err rest =>
      match decElems fuel n rest with
      | .ok vs rest2 => .ok (.cons .nil vs) rest2
      | .oob => .oob
      | .ub => .ub
      | .nofuel => .nofuel
    | .oob => .oob
    | .ub => .ub
    | .nofuel => .nofuel

/-- The dictionary pair loop: `dict[key] = value` per iteration, with failed
key/value decodes contributing the default NIL `Variant`. -/
def decPairs : Nat → Nat → EPairs → List Nat → DecP
  | 0, _, _, _ => .nofuel
  | _ + 1, 0, acc, buf => .ok acc buf
  | fuel + 1, n + 1, acc, buf =>
    match decT fuel buf with
    | .ok k r1 =>
      match decT fuel r1 with
      | .ok v r2 => decPairs fuel n (dictSet acc k v) r2
      | .err r2 => decPairs fuel n (dictSet acc k .nil) r2
      | .oob => .oob
      | .ub => .ub
      | .nofuel => .nofuel
    | .err r1 =>
      match decT fuel r1 with
      | .ok v r2 => decPairs fuel n (dictSet acc .nil v) r2
      | .err r2 => decPairs fuel n (dictSet acc .nil .nil) r2
      | .oob => .oob
      | .ub => .ub
      | .nofuel => .nofuel
    | .oob => .oob
    | .ub => .ub
    | .nofuel => .nofuel

end

/-- `bert_to_variant` entry point: when `skip_version` is false the function
first requires a version marker (`ei_decode_version` failure is an error
return); when true it decodes the term directly. -/
def bertToVariant (fuel : Nat) (buf : List Nat) (skipVersion : Bool) : Dec :=
  if skipVersion then decT fuel buf
  else
    match eiDecodeVersion buf with
    | .ok _ rest => decT fuel rest
    | .fail => .err buf
    | .oob => .oob

/-! ## The round-trip subclass

`goodT` carves out the `DynamicValue`s whose encoding the decoder maps back
to the same value: everything except the shapes the decoder cannot recover
(`Map`, `ObjectRef`, `Unsupported`, the empty list, the empty string,
NUL-containing or over-long strings, and integers outside the wire's
`ERL_INTEGER_EXT` range). -/

mutual

def goodT : EVariant → Bool
  | .nil => true
  | .bool _ => true
  | .int i => decide (-134217728 ≤ i) && decide (i ≤ 134217727)
  | .float bits => decide (bits < 18446744073709551616)
  | .str s => decide (1 ≤ s.length) && decide (s.length ≤ 255) && decide (cstr s = s)
  | .list xs =>
    (match xs with | .nil => false | .cons _ _ => true) &&
      decide (elen xs < 4294967296) && goodL xs
  | .vector2 x y =>
    decide (x < 18446744073709551616) && decide (y < 18446744073709551616)
  | .vector3 x y z =>
    decide (x < 18446744073709551616) && decide (y < 18446744073709551616) &&
      decide (z < 18446744073709551616)
  | .color r g b a =>
    decide (r < 18446744073709551616) && decide (g < 18446744073709551616) &&
      decide (b < 18446744073709551616) && decide (a < 18446744073709551616)
  | .dict _ => false
  | .object _ _ => false
  | .unsupported _ => false

def goodL : EList → Bool
  | .nil => true
  | .cons x xs => goodT x && goodL xs

end

/-! `needT`/`needL`: fuel sufficient for `decT` to decode the encoding of a
value. -/

mutual

def needT : EVariant → Nat
  | .list xs => 1 + needL xs
  | _ => 1

def needL : EList → Nat
  | .nil => 1
  | .cons x xs => 1 + max (needT x) (needL xs)

end

lemma needT_pos (v : EVariant) : 1 ≤ needT v := by
  cases v <;> simp [needT]

lemma needL_pos (xs : EList) : 1 ≤ needL xs := by
  cases xs <;> simp [needL]

/-! ### Primitive round-trip lemmas -/

lemma eiDecodeAtom_encode (s rest : List Nat) :
    eiDecodeAtom (eiEncodeAtom s ++ rest) = .ok (cstr s) rest := by
  have h1 : ¬ (s ++ rest).length < s.length := by
    simp only [List.length_append]
    omega
  simp [eiEncodeAtom, eiDecodeAtom, h1, List.take_left, List.drop_left]

lemma eiGetType_atom (s rest : List Nat) :
    eiGetType (eiEncodeAtom s ++ rest) = some (100, s.length) := rfl

lemma eiDecodeLong_encode (i : Int) (rest : List Nat)
    (h1 : -134217728 ≤ i) (h2 : i ≤ 134217727) :
    eiDecodeLong (eiEncodeLong i ++ rest) = .ok i rest := by
  by_cases hc : 0 ≤ i ∧ i < 256
  · have henc : eiEncodeLong i = [97, i.toNat] := by rw [eiEncodeLong, if_pos hc]
    rw [henc]
    simp [eiDecodeLong]
    omega
  · have henc : eiEncodeLong i = 98 :: be32 (i % 4294967296).toNat := by
      rw [eiEncodeLong, if_neg hc, if_pos ⟨h1, h2⟩]
    rw [henc]
    simp [be32, eiDecodeLong]
    omega

lemma eiGetType_long (i : Int) (rest : List Nat)
    (h1 : -134217728 ≤ i) (h2 : i ≤ 134217727) :
    eiGetType (eiEncodeLong i ++ rest) = some (98, 0) := by
  by_cases hc : 0 ≤ i ∧ i < 256
  · rw [eiEncodeLong, if_pos hc]; rfl
  · rw [eiEncodeLong, if_neg hc, if_pos ⟨h1, h2⟩]; rfl

lemma eiDecodeDouble_encode (bits : Nat) (rest : List Nat)
    (h : bits < 18446744073709551616) :
    eiDecodeDouble (eiEncodeDouble bits ++ rest) = .ok bits rest := by
  simp [eiEncodeDouble, be64, be32, eiDecodeDouble]
  omega

lemma eiGetType_double (bits : Nat) (rest : List Nat) :
    eiGetType (eiEncodeDouble bits ++ rest) = some (99, 0) := rfl

lemma eiDecodeTupleHeader_small (n : Nat) (rest : List Nat) (h : n ≤ 255) :
    eiDecodeTupleHeader (eiEncodeTupleHeader n ++ rest) = .ok n rest := by
  rw [eiEncodeTupleHeader, if_pos h]
  simp [eiDecodeTupleHeader]

lemma eiGetType_tuple_small (n : Nat) (rest : List Nat) (h : n ≤ 255) :
    eiGetType (eiEncodeTupleHeader n ++ rest) = some (104, n) := by
  rw [eiEncodeTupleHeader, if_pos h]; rfl

lemma eiDecodeListHeader_encode (n : Nat) (rest : List Nat)
    (h : n < 4294967296) (hn : n ≠ 0) :
    eiDecodeListHeader (eiEncodeListHeader n ++ rest) = .ok n rest := by
  rw [eiEncodeListHeader, if_neg hn]
  simp [be32, eiDecodeListHeader]
  omega

lemma eiGetType_list (n : Nat) (rest : List Nat) (hn : n ≠ 0) :
    ∃ m, eiGetType (eiEncodeListHeader n ++ rest) = some (108, m) := by
  rw [eiEncodeListHeader, if_neg hn]
  exact ⟨_, rfl⟩

lemma eiGetType_string (s rest : List Nat) (h0 : s.length ≠ 0) (h : s.length ≤ 255) :
    eiGetType (eiEncodeString s ++ rest) = some (107, s.length) := by
  rw [eiEncodeString, if_neg h0, if_pos (by omega)]
  show eiGetType (107 :: (be16 s.length ++ s) ++ rest) = some (107, s.length)
  simp only [be16]
  show some (107, s.length / 256 % 256 * 256 + s.length % 256) = some (107, s.length)
  congr 2
  omega

/-! ### Branch lemmas: `decT` specialized to each `ei_get_type` outcome -/

lemma decT_ty100 (fuel : Nat) (buf : List Nat) (len : Nat)
    (h : eiGetType buf = some (100, len)) :
    decT (fuel + 1) buf =
      (match eiDecodeAtom buf with
      | .ok a rest =>
        if a = atom_nil then .ok .nil rest
        else if a = atom_true then .ok (.bool true) rest
        else if a = atom_false then .ok (.bool false) rest
        else .ok (.str a) rest
      | .fail => .ub
      | .oob => .oob) := by
  rw [decT, h]
  rfl

lemma decT_ty98 (fuel : Nat) (buf : List Nat) (len : Nat)
    (h : eiGetType buf = some (98, len)) :
    decT (fuel + 1) buf =
      (match eiDecodeLong buf with
      | .ok i rest => .ok (.int i) rest
      | .fail => .err buf
      | .oob => .oob) := by
  rw [decT, h]
  rfl

lemma decT_ty99 (fuel : Nat) (buf : List Nat) (len : Nat)
    (h : eiGetType buf = some (99, len)) :
    decT (fuel + 1) buf =
      (match eiDecodeDouble buf with
      | .ok bits rest => .ok (.float bits) rest
      | .fail => .err buf
      | .oob => .oob) := by
  rw [decT, h]
  rfl

lemma decT_ty107 (fuel : Nat) (buf : List Nat) (len : Nat)
    (h : eiGetType buf = some (107, len)) :
    decT (fuel + 1) buf = decString buf := by
  rw [decT, h]
  rfl

lemma decT_ty108 (fuel : Nat) (buf : List Nat) (len : Nat)
    (h : eiGetType buf = some (108, len)) :
    decT (fuel + 1) buf =
      (match eiDecodeListHeader buf with
        | .ok arity rest =>
          if arity = 0 then
            match eiGetType rest with
            | none => .oob
            | some (t2, _) =>
              if t2 = 106 then .ok (.list .nil) (rest.drop 1) else .ok (.list .nil) rest
          else
            match decElems fuel arity rest with
            | .ok vs rest2 =>
              match eiGetType rest2 with
              | none => .oob
              | some (t2, _) =>
                if t2 = 106 then .ok (.list vs) (rest2.drop 1) else .ok (.list vs) rest2
            | .oob => .oob
            | .ub => .ub
            | .nofuel => .nofuel
        | .fail => .err buf
        | .oob => .oob) := by
  rw [decT, h]
  rfl

lemma decT_tyTuple (fuel : Nat) (buf : List Nat) (len ty0 : Nat)
    (h : eiGetType buf = some (ty0, len)) (hty : ty0 = 104 ∨ ty0 = 105) :
    decT (fuel + 1) buf =
      (match eiDecodeTupleHeader buf with
        | .ok arity rest =>
          if arity = 0 then .err rest
          else
            match eiDecodeAtom rest with
            | .ok a rest2 =>
              if a = atom_vector2 ∧ arity = 3 then
                match eiDecodeDouble rest2 with
                | .ok x r3 =>
                  match eiDecodeDouble r3 with
                  | .ok y r4 => .ok (.vector2 x y) r4
                  | .fail => .ub
                  | .oob => .oob
                | .fail => .ub
                | .oob => .oob
              else if a = atom_vector3 ∧ arity = 4 then
                match eiDecodeDouble rest2 with
                | .ok x r3 =>
                  match eiDecodeDouble r3 with
                  | .ok y r4 =>
                    match eiDecodeDouble r4 with
                    | .ok z r5 => .ok (.vector3 x y z) r5
                    | .fail => .ub
                    | .oob => .oob
                  | .fail => .ub
                  | .oob => .oob
                | .fail => .ub
                | .oob => .oob
              else if a = atom_color ∧ arity = 5 then
                match eiDecodeDouble rest2 with
                | .ok r r3 =>
                  match eiDecodeDouble r3 with
                  | .ok g r4 =>
                    match eiDecodeDouble r4 with
                    | .ok b r5 =>
                      match eiDecodeDouble r5 with
                      | .ok al r6 => .ok (.color r g b al) r6
                      | .fail => .ub
                      | .oob => .oob
                    | .fail => .ub
                    | .oob => .oob
                  | .fail => .ub
                  | .oob => .oob
                | .fail => .ub
                | .oob => .oob
              else if a = atom_dictionary ∧ arity = 2 then
                match eiDecodeLong rest2 with
                | .ok n r3 =>
                  match decPairs fuel n.toNat .nil r3 with
                  | .ok ps r4 => .ok (.dict ps) r4
                  | .oob => .oob
                  | .ub => .ub
                  | .nofuel => .nofuel
                | .fail => .ub
                | .oob => .oob
              else .err rest2
            | .fail => .err rest
            | .oob => .oob
        | .fail => .err buf
        | .oob => .oob) := by
  rcases hty with h1 | h1 <;> subst h1 <;> (rw [decT, h]; rfl)

lemma decString_cons (a b : Nat) (tail : List Nat) :
    decString (107 :: a :: b :: tail) =
      (if 255 < a * 256 + b then .ub
       else if tail.length < a * 256 + b then .oob
       else .ok (.str (cstr (tail.take (a * 256 + b)))) (tail.drop (a * 256 + b))) := rfl

/-! ### Decoding of each encoded shape -/

lemma dec_enc_nil (fuel : Nat) (rest : List Nat) :
    decT (fuel + 1) (eiEncodeAtom atom_nil ++ rest) = .ok .nil rest := by
  rw [decT_ty100 fuel _ _ (eiGetType_atom _ _), eiDecodeAtom_encode]
  rfl

lemma dec_enc_true (fuel : Nat) (rest : List Nat) :
    decT (fuel + 1) (eiEncodeAtom atom_true ++ rest) = .ok (.bool true) rest := by
  rw [decT_ty100 fuel _ _ (eiGetType_atom _ _), eiDecodeAtom_encode]
  rfl

lemma dec_enc_false (fuel : Nat) (rest : List Nat) :
    decT (fuel + 1) (eiEncodeAtom atom_false ++ rest) = .ok (.bool false) rest := by
  rw [decT_ty100 fuel _ _ (eiGetType_atom _ _), eiDecodeAtom_encode]
  rfl

lemma dec_enc_int (fuel : Nat) (i : Int) (rest : List Nat)
    (h1 : -134217728 ≤ i) (h2 : i ≤ 134217727) :
    decT (fuel + 1) (eiEncodeLong i ++ rest) = .ok (.int i) rest := by
  rw [decT_ty98 fuel _ _ (eiGetType_long i rest h1 h2), eiDecodeLong_encode i rest h1 h2]

lemma dec_enc_float (fuel bits : Nat) (rest : List Nat) (h : bits < 18446744073709551616) :
    decT (fuel + 1) (eiEncodeDouble bits ++ rest) = .ok (.float bits) rest := by
  rw [decT_ty99 fuel _ _ (eiGetType_double bits rest), eiDecodeDouble_encode bits rest h]

lemma dec_enc_str (fuel : Nat) (s rest : List Nat)
    (h1 : 1 ≤ s.length) (h2 : s.length ≤ 255) (h3 : cstr s = s) :
    decT (fuel + 1) (eiEncodeString s ++ rest) = .ok (.str s) rest := by
  have hbuf : eiEncodeString s ++ rest
      = 107 :: (s.length / 256 % 256) :: (s.length % 256) :: (s ++ rest) := by
    rw [eiEncodeString, if_neg (by omega), if_pos (by omega)]
    simp [be16]
  have harith : s.length / 256 % 256 * 256 + s.length % 256 = s.length := by omega
  have hlen2 : ¬ (s ++ rest).length < s.length := by
    simp only [List.length_append]; omega
  rw [decT_ty107 fuel _ _ (eiGetType_string s rest (by omega) h2), hbuf, decString_cons, harith]
  rw [if_neg (by omega), if_neg hlen2, List.take_left, List.drop_left, h3]

lemma dec_enc_vec2 (fuel x y : Nat) (rest : List Nat)
    (hx : x < 18446744073709551616) (hy : y < 18446744073709551616) :
    decT (fuel + 1)
      ((eiEncodeTupleHeader 3 ++ eiEncodeAtom atom_vector2 ++
        eiEncodeDouble x ++ eiEncodeDouble y) ++ rest) = .ok (.vector2 x y) rest := by
  simp only [List.append_assoc]
  rw [decT_tyTuple fuel _ _ 104 (eiGetType_tuple_small 3 _ (by decide)) (Or.inl rfl)]
  rw [eiDecodeTupleHeader_small 3 _ (by decide)]
  dsimp only []
  rw [eiDecodeAtom_encode]
  rw [show cstr atom_vector2 = atom_vector2 from by decide]
  dsimp only []
  rw [eiDecodeDouble_encode x _ hx]
  dsimp only []
  rw [eiDecodeDouble_encode y _ hy]
  rfl

lemma dec_enc_vec3 (fuel x y z : Nat) (rest : List Nat)
    (hx : x < 18446744073709551616) (hy : y < 18446744073709551616)
    (hz : z < 18446744073709551616) :
    decT (fuel + 1)
      ((eiEncodeTupleHeader 4 ++ eiEncodeAtom atom_vector3 ++
        eiEncodeDouble x ++ eiEncodeDouble y ++ eiEncodeDouble z) ++ rest)
      = .ok (.vector3 x y z) rest := by
  simp only [List.append_assoc]
  rw [decT_tyTuple fuel _ _ 104 (eiGetType_tuple_small 4 _ (by decide)) (Or.inl rfl)]
  rw [eiDecodeTupleHeader_small 4 _ (by decide)]
  dsimp only []
  rw [eiDecodeAtom_encode]
  rw [show cstr atom_vector3 = atom_vector3 from by decide]
  dsimp only []
  rw [eiDecodeDouble_encode x _ hx]
  dsimp only []
  rw [eiDecodeDouble_encode y _ hy]
  dsimp only []
  rw [eiDecodeDouble_encode z _ hz]
  rfl

lemma dec_enc_color (fuel r g b a : Nat) (rest : List Nat)
    (hr : r < 18446744073709551616) (hg : g < 18446744073709551616)
    (hb : b < 18446744073709551616) (ha : a < 18446744073709551616) :
    decT (fuel + 1)
      ((eiEncodeTupleHeader 5 ++ eiEncodeAtom atom_color ++
        eiEncodeDouble r ++ eiEncodeDouble g ++ eiEncodeDouble b ++ eiEncodeDouble a)
        ++ rest) = .ok (.color r g b a) rest := by
  simp only [List.append_assoc]
  rw [decT_tyTuple fuel _ _ 104 (eiGetType_tuple_small 5 _ (by decide)) (Or.inl rfl)]
  rw [eiDecodeTupleHeader_small 5 _ (by decide)]
  dsimp only []
  rw [eiDecodeAtom_encode]
  rw [show cstr atom_color = atom_color from by decide]
  dsimp only []
  rw [eiDecodeDouble_encode r _ hr]
  dsimp only []
  rw [eiDecodeDouble_encode g _ hg]
  dsimp only []
  rw [eiDecodeDouble_encode b _ hb]
  dsimp only []
  rw [eiDecodeDouble_encode a _ ha]
  rfl

lemma dec_enc_list (fuel : Nat) (xs : EList) (rest : List Nat)
    (helen : elen xs ≠ 0) (hlt : elen xs < 4294967296)
    (helems : decElems fuel (elen xs) (encodeElems xs ++ (106 :: rest)) = .ok xs (106 :: rest)) :
    decT (fuel + 1)
      ((eiEncodeListHeader (elen xs) ++ encodeElems xs ++ eiEncodeEmptyList) ++ rest)
      = .ok (.list xs) rest := by
  simp only [List.append_assoc, eiEncodeEmptyList, List.cons_append, List.nil_append]
  obtain ⟨m, hm⟩ := eiGetType_list (elen xs) (encodeElems xs ++ (106 :: rest)) helen
  rw [decT_ty108 fuel _ _ hm]
  rw [eiDecodeListHeader_encode _ _ hlt helen]
  dsimp only []
  rw [if_neg helen, helems]
  rfl

/-! ### The round-trip theorem over the good subclass -/

theorem roundtripAux (fuel : Nat) :
    (∀ v rest, goodT v = true → needT v ≤ fuel →
        decT fuel (variantToBert v ++ rest) = .ok v rest) ∧
    (∀ xs rest, goodL xs = true → needL xs ≤ fuel →
        decElems fuel (elen xs) (encodeElems xs ++ rest) = .ok xs rest) := by
  induction fuel with
  | zero =>
    constructor
    · intro v rest _ hf
      exact absurd hf (by have := needT_pos v; omega)
    · intro xs rest _ hf
      exact absurd hf (by have := needL_pos xs; omega)
  | succ fuel ih =>
    obtain ⟨ihT, ihL⟩ := ih
    constructor
    · intro v rest hg hf
      cases v with
      | nil => exact dec_enc_nil fuel rest
      | bool b =>
        cases b with
        | true => exact dec_enc_true fuel rest
        | false => exact dec_enc_false fuel rest
      | int i =>
        simp only [goodT, Bool.and_eq_true, decide_eq_true_eq] at hg
        exact dec_enc_int fuel i rest hg.1 hg.2
      | float bits =>
        simp only [goodT, decide_eq_true_eq] at hg
        exact dec_enc_float fuel bits rest hg
      | str s =>
        simp only [goodT, Bool.and_eq_true, decide_eq_true_eq] at hg
        exact dec_enc_str fuel s rest hg.1.1 hg.1.2 hg.2
      | list xs =>
        simp only [goodT, Bool.and_eq_true, decide_eq_true_eq] at hg
        obtain ⟨⟨hne, hlt⟩, hgl⟩ := hg
        have helen : elen xs ≠ 0 := by
          cases xs with
          | nil => simp at hne
          | cons x xs2 => simp [elen]
        have hfl : needL xs ≤ fuel := by
          simp only [needT] at hf; omega
        have helems := ihL xs (eiEncodeEmptyList ++ rest) hgl hfl
        simp only [eiEncodeEmptyList, List.cons_append, List.nil_append] at helems
        exact dec_enc_list fuel xs rest helen hlt helems
      | dict ps => simp [goodT] at hg
      | object cls id => simp [goodT] at hg
      | unsupported ty => simp [goodT] at hg
      | vector2 x y =>
        simp only [goodT, Bool.and_eq_true, decide_eq_true_eq] at hg
        exact dec_enc_vec2 fuel x y rest hg.1 hg.2
      | vector3 x y z =>
        simp only [goodT, Bool.and_eq_true, decide_eq_true_eq] at hg
        exact dec_enc_vec3 fuel x y z rest hg.1.1 hg.1.2 hg.2
      | color r g b a =>
        simp only [goodT, Bool.and_eq_true, decide_eq_true_eq] at hg
        exact dec_enc_color fuel r g b a rest hg.1.1.1 hg.1.1.2 hg.1.2 hg.2
    · intro xs rest hg hf
      cases xs with
      | nil =>
        show decElems (fuel + 1) 0 ([] ++ rest) = .ok .nil rest
        simp [decElems]
      | cons x xs2 =>
        simp only [goodL, Bool.and_eq_true] at hg
        obtain ⟨hgx, hgxs⟩ := hg
        have hfx : needT x ≤ fuel := by
          simp only [needL] at hf; omega
        have hfxs : needL xs2 ≤ fuel := by
          simp only [needL] at hf; omega
        have helen2 : elen (.cons x xs2) = elen xs2 + 1 := by simp [elen]; omega
        rw [helen2]
        show decElems (fuel + 1) (elen xs2 + 1)
            ((variantToBert x ++ encodeElems xs2) ++ rest) = .ok (.cons x xs2) rest
        rw [decElems]
        simp only [List.append_assoc]
        rw [ihT x (encodeElems xs2 ++ rest) hgx hfx]
        dsimp only []
        rw [ihL xs2 rest hgxs hfxs]

/-- Round-trip over the good subclass, at the top level (no trailing bytes). -/
theorem bert_roundtrip (v : EVariant) (fuel : Nat)
    (hg : goodT v = true) (hf : needT v ≤ fuel) :
    decT fuel (variantToBert v) = .ok v [] := by
  have := (roundtripAux fuel).1 v [] hg hf
  simpa using this

/-! ## Opaque routing identifiers (`erlang_pid` / `erlang_ref`)

The engine carries the sender PID and the reply tag opaquely: it decodes
them into structs and re-encodes them unchanged into the reply.  Wire forms
follow the modern external term format (`NEW_PID_EXT`, tag 88, and
`NEWER_REFERENCE_EXT`, tag 90). -/

structure ErlangPid where
  node : List Nat
  num : Nat
  serial : Nat
  creation : Nat
deriving DecidableEq

structure ErlangRef where
  node : List Nat
  creation : Nat
  ids : List Nat
deriving DecidableEq

/-- `ei_encode_pid` (`NEW_PID_EXT`). -/
def eiEncodePid (p : ErlangPid) : List Nat :=
  88 :: (eiEncodeAtom p.node ++ be32 p.num ++ be32 p.serial ++ be32 p.creation)

/-- `ei_decode_pid` (`NEW_PID_EXT`). -/
def eiDecodePid (buf : List Nat) : Prim ErlangPid :=
  match buf with
  | [] => .oob
  | t :: rest =>
    if t = 88 then
      match eiDecodeAtom rest with
      | .ok node r1 =>
        match r1 with
        | a1 :: a2 :: a3 :: a4 :: b1 :: b2 :: b3 :: b4 :: c1 :: c2 :: c3 :: c4 :: r2 =>
          .ok ⟨node, ((a1 * 256 + a2) * 256 + a3) * 256 + a4,
               ((b1 * 256 + b2) * 256 + b3) * 256 + b4,
               ((c1 * 256 + c2) * 256 + c3) * 256 + c4⟩ r2
        | _ => .oob
      | .fail => .fail
      | .oob => .oob
    else .fail

/-- Read `n` big-endian 32-bit id words of a reference payload. -/
def readIds : Nat → List Nat → Prim (List Nat)
  | 0, buf => .ok [] buf
  | n + 1, buf =>
    match buf with
    | a :: b :: c :: d :: r =>
      match readIds n r with
      | .ok ids r2 => .ok ((((a * 256 + b) * 256 + c) * 256 + d) :: ids) r2
      | .fail => .fail
      | .oob => .oob
    | _ => .oob

/-- `ei_x_encode_ref` (`NEWER_REFERENCE_EXT`). -/
def eiEncodeRef (r : ErlangRef) : List Nat :=
  90 :: (be16 r.ids.length ++ eiEncodeAtom r.node ++ be32 r.creation
    ++ (r.ids.map be32).flatten)

/-- `ei_decode_ref` (`NEWER_REFERENCE_EXT`). -/
def eiDecodeRef (buf : List Nat) : Prim ErlangRef :=
  match buf with
  | [] => .oob
  | t :: rest =>
    if t = 90 then
      match rest with
      | l1 :: l2 :: r1 =>
        match eiDecodeAtom r1 with
        | .ok node r2 =>
          match r2 with
          | c1 :: c2 :: c3 :: c4 :: r3 =>
            match readIds (l1 * 256 + l2) r3 with
            | .ok ids r4 =>
              .ok ⟨node, ((c1 * 256 + c2) * 256 + c3) * 256 + c4, ids⟩ r4
            | .fail => .fail
            | .oob => .oob
          | _ => .oob
        | .fail => .fail
        | .oob => .oob
      | _ => .oob
    else .fail

/-- Well-formed atom bytes: short enough for one wire atom and free of NUL
bytes, so that the NUL-terminated copy is the identity. -/
def wfAtomB (s : List Nat) : Bool := decide (s.length ≤ 255) && decide (cstr s = s)

/-- Well-formed PID struct (fields within their wire widths). -/
def wfPid (p : ErlangPid) : Bool :=
  wfAtomB p.node && decide (p.num < 4294967296) &&
    decide (p.serial < 4294967296) && decide (p.creation < 4294967296)

/-- Well-formed reference struct. -/
def wfRef (r : ErlangRef) : Bool :=
  wfAtomB r.node && decide (r.creation < 4294967296) &&
    decide (r.ids.length ≤ 65535) && r.ids.all (fun i => decide (i < 4294967296))

/-! ## The host object model boundary

`handle_call`/`handle_cast` dispatch against the Godot object model
(`ObjectDB::get_instance`, `Object::callv`, `Object::get`/`set`), which the
spec treats as the out-of-scope external collaborator.  `Host` abstracts
exactly the capabilities the handlers consume; argument marshalling that
belongs to that boundary (`Variant::operator String()` on the method name)
is folded into the capability, which receives the raw decoded variants. -/

structure Host where
  objectExists : Int → Bool
  callMethod : Int → EVariant → EList → EVariant
  getProperty : Int → EVariant → EVariant
  thisnodename : List Nat

/-- `Variant::operator int64_t()` for the variant kinds the verified claims
exercise (NIL, BOOL, INT); the conversion of the remaining kinds is not
reached by any claim below and is modelled as 0. -/
def variantToInt : EVariant → Int
  | .int i => i
  | .bool b => if b then 1 else 0
  | _ => 0

/-- The `{error, Reason}` reply payload the call handler encodes on its
error paths. -/
def errReply (reason : List Nat) : List Nat :=
  eiEncodeTupleHeader 2 ++ eiEncodeAtom atom_error ++ eiEncodeString reason

/-- Argument handling of `handle_call`/`handle_cast`: an ARRAY argument
value is used as the argument list, anything else (including the default
NIL produced by a failed decode) is wrapped as a single argument. -/
def toArgs : EVariant → EList
  | .list xs => xs
  | w => .cons w .nil

/-- The module/function routing block of `handle_call` (lines 1022-1120):
every branch encodes exactly one reply payload into the reply buffer. -/
def dispatch (host : Host) (moduleName funcName : List Nat) (args : EList) : List Nat :=
  if moduleName = atom_godot then
    if funcName = atom_call_method then
      if 2 ≤ elen args then
        let objectId := variantToInt (elGet args 0)
        let methodArgs :=
          if 2 < elen args then
            match elGet args 2 with
            | .list xs => xs
            | _ => .nil
          else .nil
        if host.objectExists objectId then
          variantToBert (host.callMethod objectId (elGet args 1) methodArgs)
        else errReply atom_object_not_found
      else errReply atom_insufficient_arguments
    else if funcName = atom_get_property then
      if 2 ≤ elen args then
        let objectId := variantToInt (elGet args 0)
        if host.objectExists objectId then
          variantToBert (host.getProperty objectId (elGet args 1))
        else errReply atom_object_not_found
      else errReply atom_insufficient_arguments
    else if funcName = atom_set_property then
      if 3 ≤ elen args then
        if host.objectExists (variantToInt (elGet args 0)) then eiEncodeAtom atom_ok
        else errReply atom_object_not_found
      else errReply atom_insufficient_arguments
    else errReply atom_unknown_function
  else if moduleName = atom_erlang then
    if funcName = atom_node then eiEncodeAtom host.thisnodename
    else if funcName = atom_nodes then eiEncodeListHeader 0 ++ eiEncodeEmptyList
    else errReply atom_unknown_function
  else errReply atom_unknown_module

/-- A reply frame: the destination PID and the bytes handed to `ei_send`. -/
abbrev ReplyFrame := ErlangPid × List Nat

/-- `send_reply`: wraps the already-encoded reply payload as `{Tag, Reply}`
behind a fresh version marker (`ei_x_new_with_version`) and addresses it to
the sender PID.  A transport write failure is logged and does not alter the
frame or close the connection. -/
def sendReply (payload : List Nat) (toPid : ErlangPid) (tagRef : ErlangRef) : ReplyFrame :=
  (toPid, 131 :: (eiEncodeTupleHeader 2 ++ eiEncodeRef tagRef ++ payload))

/-- Result of `handle_call`: the returned status, with the reply frames
written on the connection; `oob`/`ub`/`nofuel` as for the codec. -/
inductive HCRes where
  | ok (status : Int) (replies : List ReplyFrame)
  | oob
  | ub
  | nofuel
deriving DecidableEq

/-- `handle_call` (lines 945-1127): decodes the Request tuple
`{Module, Function, Args...}` and sends exactly one reply on every control
path — malformed Request, unknown module/function and missing objects are
answered with `{error, Reason}` replies.  The null-pointer and bad-fd guards
cannot fire in this embedding (the buffer is a value and the connection is
the one the frame arrived on). -/
def handleCall (host : Host) (fuel : Nat) (buf : List Nat)
    (fromPid : ErlangPid) (tagRef : ErlangRef) : HCRes :=
  match eiDecodeTupleHeader buf with
  | .oob => .oob
  | .fail => .ok (-1) [sendReply (errReply atom_invalid_request_format) fromPid tagRef]
  | .ok arity r1 =>
    if arity < 2 then
      .ok (-1) [sendReply (errReply atom_invalid_request_format) fromPid tagRef]
    else
      match eiDecodeAtom r1 with
      | .oob => .oob
      | .fail => .ok (-1) [sendReply (errReply atom_invalid_module) fromPid tagRef]
      | .ok moduleName r2 =>
        match eiDecodeAtom r2 with
        | .oob => .oob
        | .fail => .ok (-1) [sendReply (errReply atom_invalid_function) fromPid tagRef]
        | .ok funcName r3 =>
          if arity ≤ 2 then
            .ok 0 [sendReply (dispatch host moduleName funcName .nil) fromPid tagRef]
          else
            match decT fuel r3 with
            | .oob => .oob
            | .ub => .ub
            | .nofuel => .nofuel
            | .ok v _r4 =>
              .ok 0 [sendReply (dispatch host moduleName funcName (toArgs v)) fromPid tagRef]
            | .err _r4 =>
              .ok 0 [sendReply (dispatch host moduleName funcName (toArgs .nil)) fromPid tagRef]

/-- Result of `handle_cast`: just the status — the cast handler never
writes reply bytes. -/
inductive CastRes where
  | ok (status : Int)
  | oob
  | ub
  | nofuel
deriving DecidableEq

/-- `handle_cast` (lines 1132-1237): decodes the same Request shape, runs
the dispatch for its side effects only, discards every result and returns 0;
only a malformed Request yields -1.  No branch produces a reply frame. -/
def handleCast (fuel : Nat) (buf : List Nat) : CastRes :=
  match eiDecodeTupleHeader buf with
  | .oob => .oob
  | .fail => .ok (-1)
  | .ok arity r1 =>
    if arity < 2 then .ok (-1)
    else
      match eiDecodeAtom r1 with
      | .oob => .oob
      | .fail => .ok (-1)
      | .ok _moduleName r2 =>
        match eiDecodeAtom r2 with
        | .oob => .oob
        | .fail => .ok (-1)
        | .ok _funcName r3 =>
          if arity ≤ 2 then .ok 0
          else
            match decT fuel r3 with
            | .oob => .oob
            | .ub => .ub
            | .nofuel => .nofuel
            | .ok _ _ => .ok 0
            | .err _ => .ok 0

/-- Result of `process_message`. -/
inductive PMRes where
  | ok (status : Int) (replies : List ReplyFrame)
  | oob
  | ub
  | nofuel
deriving DecidableEq

/-- The frame classification of `process_message` after the optional
version marker (lines 712-801): outer tuple header, first atom, then the
`$gen_call` / `$gen_cast` / `rex` / plain-message cases. -/
def processBody (host : Host) (fuel : Nat) (body : List Nat) : PMRes :=
  match eiDecodeTupleHeader body with
  | .oob => .oob
  | .fail => .ok (-1) []
  | .ok _arity r1 =>
    match eiDecodeAtom r1 with
    | .oob => .oob
    | .fail => .ok (-1) []
    | .ok a r2 =>
      if a = atom_dollar_gen_call then
        match eiDecodeTupleHeader r2 with
        | .oob => .oob
        | .fail => .ok (-1) []
        | .ok fromArity r3 =>
          if fromArity = 2 then
            match eiDecodePid r3 with
            | .oob => .oob
            | .fail => .ok (-1) []
            | .ok fromPid r4 =>
              match eiDecodeRef r4 with
              | .oob => .oob
              | .fail => .ok (-1) []
              | .ok tagRef r5 =>
                match handleCall host fuel r5 fromPid tagRef with
                | .ok st rs => .ok st rs
                | .oob => .oob
                | .ub => .ub
                | .nofuel => .nofuel
          else .ok (-1) []
      else if a = atom_dollar_gen_cast then
        match handleCast fuel r2 with
        | .ok st => .ok st []
        | .oob => .oob
        | .ub => .ub
        | .nofuel => .nofuel
      else if a = atom_rex then
        match eiDecodePid r2 with
        | .oob => .oob
        | .fail => .ok (-1) []
        | .ok _relayPid r3 =>
          match eiDecodeTupleHeader r3 with
          | .oob => .oob
          | .fail => .ok (-1) []
          | .ok _reqArity r4 =>
            match eiDecodeAtom r4 with
            | .oob => .oob
            | .fail => .ok (-1) []
            | .ok g r5 =>
              if g = atom_dollar_gen_call then
                match eiDecodeTupleHeader r5 with
                | .oob => .oob
                | .fail => .ok (-1) []
                | .ok fromArity r6 =>
                  if fromArity = 2 then
                    match eiDecodePid r6 with
                    | .oob => .oob
                    | .fail => .ok (-1) []
                    | .ok fromPid r7 =>
                      match eiDecodeRef r7 with
                      | .oob => .oob
                      | .fail => .ok (-1) []
                      | .ok tagRef r8 =>
                        match handleCall host fuel r8 fromPid tagRef with
                        | .ok st rs => .ok st rs
                        | .oob => .oob
                        | .ub => .ub
                        | .nofuel => .nofuel
                  else .ok (-1) []
              else .ok (-1) []
      else
        match handleCast fuel body with
        | .ok st => .ok st []
        | .oob => .oob
        | .ub => .ub
        | .nofuel => .nofuel

/-- `process_message` (lines 686-802): a leading version marker is skipped
when present; when `ei_decode_version` fails the cursor is restored and the
frame is processed from its start.  (On an empty buffer the version probe
itself reads out of bounds.) -/
def processMessage (host : Host) (fuel : Nat) (buf : List Nat) : PMRes :=
  match eiDecodeVersion buf with
  | .oob => .oob
  | .ok _ r => processBody host fuel r
  | .fail => processBody host fuel buf

/-- The close decision of the single-step driver `process_cnode_frame`
(lines 1865-1879): after a received message is processed, the connection is
closed exactly when `process_message` returned a negative status. -/
def stepClosesConnection (status : Int) : Bool := decide (status < 0)

/-! ## Handshake engine

Modelled from the spec: the accept-side handshake is performed inside
`ei_accept` in the vendored erl_interface library, whose sources are not
part of `src/`; `main_loop` (lines 1349-1375) only sees its outcome — a
valid connection descriptor on success, or a failure in which case the
connection is skipped.  Following spec section 4.2: states `AwaitingName`,
`AwaitingChallengeReply`, `Authenticated`, `Rejected`; the name frame is
answered with a status frame and a challenge; the challenge reply must carry
`digest(shared_secret || decimal_string(outbound_challenge))`; on match an
acknowledgment digest over a second challenge is sent, on mismatch or a
malformed frame the state machine rejects, closes, and processes nothing
further. -/

inductive HandshakeState where
  | awaitingName
  | awaitingChallengeReply
  | authenticated
  | rejected
deriving DecidableEq

/-- Modelled from the spec: inbound handshake frames — the `'n'` name frame,
the `'r'` challenge reply carrying the keyed digest, or anything malformed. -/
inductive HsIn where
  | name (version : Nat) (flags : Nat) (peerName : List Nat)
  | challengeReply (digest : List Nat)
  | malformed
deriving DecidableEq

/-- Modelled from the spec: outbound handshake frames — the `'s'` status
frame, the `'n'` challenge frame, the `'a'` acknowledgment digest. -/
inductive HsOut where
  | statusOk
  | challenge (value : Nat)
  | ack (digest : List Nat)
deriving DecidableEq

/-- Whether an outbound handshake frame is the acknowledgment. -/
def HsOut.isAck : HsOut → Bool
  | .ack _ => true
  | _ => false

/-- Modelled from the spec: per-connection handshake configuration — the
shared secret and the two locally generated challenge values. -/
structure HsConfig where
  secret : List Nat
  localChallenge : Nat
  secondChallenge : Nat
deriving DecidableEq

/-- Modelled from the spec: one handshake transition.  `digestFn` is the
keyed-digest primitive `digest(secret || decimal_string(challenge))`,
abstracted over its arguments. -/
def hsStep (digestFn : List Nat → Nat → List Nat) (cfg : HsConfig) :
    HandshakeState → HsIn → HandshakeState × List HsOut
  | .awaitingName, .name _ _ _ =>
    (.awaitingChallengeReply, [.statusOk, .challenge cfg.localChallenge])
  | .awaitingName, _ => (.rejected, [])
  | .awaitingChallengeReply, .challengeReply d =>
    if d = digestFn cfg.secret cfg.localChallenge then
      (.authenticated, [.ack (digestFn cfg.secret cfg.secondChallenge)])
    else (.rejected, [])
  | .awaitingChallengeReply, _ => (.rejected, [])
  | s, _ => (s, [])

/-- Modelled from the spec: run the handshake over a frame sequence; once a
terminal state (`Authenticated` or `Rejected`) is reached no further frame
is processed — a rejected connection is closed. -/
def hsRun (digestFn : List Nat → Nat → List Nat) (cfg : HsConfig) :
    HandshakeState → List HsIn → HandshakeState × List HsOut
  | s, [] => (s, [])
  | s, f :: fs =>
    if s = .authenticated ∨ s = .rejected then (s, [])
    else
      let step := hsStep digestFn cfg s f
      let run := hsRun digestFn cfg step.1 fs
      (run.1, step.2 ++ run.2)

/-! ### PID/reference round-trips (decode of the wire forms the engine echoes) -/

lemma readIds_encode (ids : List Nat) (rest : List Nat)
    (h : ∀ i ∈ ids, i < 4294967296) :
    readIds ids.length ((ids.map be32).flatten ++ rest) = .ok ids rest := by
  induction ids with
  | nil => simp [readIds]
  | cons i ids ih =>
    have hi : i < 4294967296 := h i (by simp)
    have hids : ∀ j ∈ ids, j < 4294967296 := fun j hj => h j (by simp [hj])
    simp only [List.map_cons, List.flatten_cons, List.length_cons, List.append_assoc]
    simp only [be32, List.cons_append, List.nil_append]
    rw [readIds]
    rw [ih hids]
    have hrec : ((i / 16777216 % 256 * 256 + i / 65536 % 256) * 256 + i / 256 % 256) * 256
        + i % 256 = i := by
      omega
    rw [hrec]

lemma eiDecodePid_encode (p : ErlangPid) (rest : List Nat) (h : wfPid p = true) :
    eiDecodePid (eiEncodePid p ++ rest) = .ok p rest := by
  obtain ⟨node, num, serial, creation⟩ := p
  simp only [wfPid, wfAtomB, Bool.and_eq_true, decide_eq_true_eq] at h
  obtain ⟨⟨⟨⟨_, hn⟩, h1⟩, h2⟩, h3⟩ := h
  simp only [eiEncodePid, List.cons_append, List.append_assoc]
  rw [eiDecodePid]
  rw [if_pos rfl]
  rw [eiDecodeAtom_encode]
  try dsimp only []
  rw [hn]
  simp only [be32, List.cons_append, List.nil_append]
  try dsimp only []
  simp only [Prim.ok.injEq, ErlangPid.mk.injEq, true_and, and_true]
  omega

lemma eiDecodeRef_encode (r : ErlangRef) (rest : List Nat) (h : wfRef r = true) :
    eiDecodeRef (eiEncodeRef r ++ rest) = .ok r rest := by
  obtain ⟨node, creation, ids⟩ := r
  simp only [wfRef, wfAtomB, Bool.and_eq_true, decide_eq_true_eq, List.all_eq_true] at h
  obtain ⟨⟨⟨⟨_, hn⟩, h1⟩, h2⟩, h3⟩ := h
  have hids : ∀ i ∈ ids, i < 4294967296 := by
    intro i hi
    simpa using h3 i hi
  have hlen : ids.length / 256 % 256 * 256 + ids.length % 256 = ids.length := by omega
  simp only [eiEncodeRef, be16, List.cons_append, List.nil_append, List.append_assoc]
  rw [eiDecodeRef]
  rw [if_pos rfl]
  try dsimp only []
  rw [eiDecodeAtom_encode]
  try dsimp only []
  rw [hn]
  simp only [be32, List.cons_append, List.nil_append]
  try dsimp only []
  rw [hlen, readIds_encode ids rest hids]
  simp only [Prim.ok.injEq, ErlangRef.mk.injEq, true_and, and_true]
  omega

/-! ### Frame builders and reduction lemmas -/

def mkGenCallFrame (p : ErlangPid) (r : ErlangRef) (req : List Nat) : List Nat :=
  eiEncodeTupleHeader 3 ++ eiEncodeAtom atom_dollar_gen_call ++
    eiEncodeTupleHeader 2 ++ eiEncodePid p ++ eiEncodeRef r ++ req

def mkGenCastFrame (req : List Nat) : List Nat :=
  eiEncodeTupleHeader 2 ++ eiEncodeAtom atom_dollar_gen_cast ++ req

def mkRexInnerFrame (relay : ErlangPid) (inner : List Nat) : List Nat :=
  eiEncodeTupleHeader 3 ++ eiEncodeAtom atom_rex ++ eiEncodePid relay ++ inner

def mkRexFrame (relay p : ErlangPid) (r : ErlangRef) (req : List Nat) : List Nat :=
  mkRexInnerFrame relay
    (eiEncodeTupleHeader 3 ++ eiEncodeAtom atom_dollar_gen_call ++
      eiEncodeTupleHeader 2 ++ eiEncodePid p ++ eiEncodeRef r ++ req)

lemma processMessage_eq_body (host : Host) (fuel : Nat) (b : Nat) (bs : List Nat)
    (hb : b ≠ 131) :
    processMessage host fuel (b :: bs) = processBody host fuel (b :: bs) := by
  unfold processMessage
  rw [show eiDecodeVersion (b :: bs) = .fail from by rw [eiDecodeVersion, if_neg hb]]

lemma processBody_gen_call (host : Host) (fuel : Nat) (p : ErlangPid) (r : ErlangRef)
    (req : List Nat) (hp : wfPid p = true) (hr : wfRef r = true) :
    processBody host fuel (mkGenCallFrame p r req) =
      (match handleCall host fuel req p r with
       | .ok st rs => .ok st rs
       | .oob => .oob
       | .ub => .ub
       | .nofuel => .nofuel) := by
  unfold processBody mkGenCallFrame
  simp only [List.append_assoc]
  rw [eiDecodeTupleHeader_small 3 _ (by decide)]
  try dsimp only []
  rw [eiDecodeAtom_encode]
  rw [show cstr atom_dollar_gen_call = atom_dollar_gen_call from by decide]
  try dsimp only []
  rw [if_pos rfl]
  rw [eiDecodeTupleHeader_small 2 _ (by decide)]
  try dsimp only []
  rw [if_pos rfl]
  rw [eiDecodePid_encode p _ hp]
  try dsimp only []
  rw [eiDecodeRef_encode r _ hr]

lemma processBody_gen_cast (host : Host) (fuel : Nat) (req : List Nat) :
    processBody host fuel (mkGenCastFrame req) =
      (match handleCast fuel req with
       | .ok st => .ok st []
       | .oob => .oob
       | .ub => .ub
       | .nofuel => .nofuel) := by
  unfold processBody mkGenCastFrame
  simp only [List.append_assoc]
  rw [eiDecodeTupleHeader_small 2 _ (by decide)]
  try dsimp only []
  rw [eiDecodeAtom_encode]
  rw [show cstr atom_dollar_gen_cast = atom_dollar_gen_cast from by decide]
  try dsimp only []
  rw [if_neg (by decide), if_pos rfl]

lemma processBody_rex (host : Host) (fuel : Nat) (relay p : ErlangPid) (r : ErlangRef)
    (req : List Nat) (hrelay : wfPid relay = true) (hp : wfPid p = true)
    (hr : wfRef r = true) :
    processBody host fuel (mkRexFrame relay p r req) =
      (match handleCall host fuel req p r with
       | .ok st rs => .ok st rs
       | .oob => .oob
       | .ub => .ub
       | .nofuel => .nofuel) := by
  unfold processBody mkRexFrame mkRexInnerFrame
  simp only [List.append_assoc]
  rw [eiDecodeTupleHeader_small 3 _ (by decide)]
  try dsimp only []
  rw [eiDecodeAtom_encode]
  rw [show cstr atom_rex = atom_rex from by decide]
  try dsimp only []
  rw [if_neg (by decide), if_neg (by decide), if_pos rfl]
  rw [eiDecodePid_encode relay _ hrelay]
  try dsimp only []
  rw [eiDecodeTupleHeader_small 3 _ (by decide)]
  try dsimp only []
  rw [eiDecodeAtom_encode]
  rw [show cstr atom_dollar_gen_call = atom_dollar_gen_call from by decide]
  try dsimp only []
  rw [if_pos rfl]
  rw [eiDecodeTupleHeader_small 2 _ (by decide)]
  try dsimp only []
  rw [if_pos rfl]
  rw [eiDecodePid_encode p _ hp]
  try dsimp only []
  rw [eiDecodeRef_encode r _ hr]

lemma handleCall_replies (host : Host) (fuel : Nat) (buf : List Nat)
    (p : ErlangPid) (r : ErlangRef) (st : Int) (rs : List ReplyFrame)
    (h : handleCall host fuel buf p r = .ok st rs) :
    ∃ payload, rs = [(p, 131 :: (eiEncodeTupleHeader 2 ++ eiEncodeRef r ++ payload))] := by
  unfold handleCall at h
  repeat' split at h
  all_goals first
    | exact HCRes.noConfusion h
    | (injection h with h1 h2; exact ⟨_, h2.symm⟩)


/-! ### Dictionary-marker decoding -/

def goodP : EPairs → Bool
  | .nil => true
  | .cons k v ps => goodT k && goodT v && goodP ps

def needP : EPairs → Nat
  | .nil => 1
  | .cons k v ps => 1 + max (needT k) (max (needT v) (needP ps))

/-- The dictionary the pair loop builds: successive `dict[key] = value`
assignments starting from `acc`. -/
def dictAccum : EPairs → EPairs → EPairs
  | acc, .nil => acc
  | acc, .cons k v ps => dictAccum (dictSet acc k v) ps

lemma decPairs_encode :
    ∀ fuel ps acc rest, goodP ps = true → needP ps ≤ fuel →
      decPairs fuel (plen ps) acc (encodePairs ps ++ rest) = .ok (dictAccum acc ps) rest := by
  intro fuel
  induction fuel with
  | zero =>
    intro ps acc rest _ hf
    exact absurd hf (by cases ps <;> simp [needP])
  | succ f ih =>
    intro ps acc rest hg hf
    cases ps with
    | nil =>
      show decPairs (f + 1) 0 acc ([] ++ rest) = .ok acc rest
      simp [decPairs]
    | cons k v ps =>
      simp only [goodP, Bool.and_eq_true] at hg
      obtain ⟨⟨hgk, hgv⟩, hgps⟩ := hg
      have hfk : needT k ≤ f := by simp only [needP] at hf; omega
      have hfv : needT v ≤ f := by simp only [needP] at hf; omega
      have hfps : needP ps ≤ f := by simp only [needP] at hf; omega
      have hplen : plen (.cons k v ps) = plen ps + 1 := by simp [plen]; omega
      rw [hplen]
      simp only [encodePairs, List.append_assoc]
      rw [decPairs]
      rw [(roundtripAux f).1 k _ hgk hfk]
      try dsimp only []
      rw [(roundtripAux f).1 v _ hgv hfv]
      try dsimp only []
      exact ih ps (dictSet acc k v) rest hgps hfps

lemma dec_enc_dict (fuel : Nat) (ps : EPairs) (rest : List Nat)
    (hg : goodP ps = true) (_hlen : plen ps ≤ 255) (hf : needP ps ≤ fuel) :
    decT (fuel + 1)
      ((eiEncodeTupleHeader 2 ++ eiEncodeAtom atom_dictionary ++ [97, plen ps])
        ++ encodePairs ps ++ rest)
      = .ok (.dict (dictAccum .nil ps)) rest := by
  simp only [List.append_assoc, List.cons_append, List.nil_append]
  rw [decT_tyTuple fuel _ _ 104 (eiGetType_tuple_small 2 _ (by decide)) (Or.inl rfl)]
  rw [eiDecodeTupleHeader_small 2 _ (by decide)]
  try dsimp only []
  rw [if_neg (by decide)]
  rw [eiDecodeAtom_encode]
  rw [show cstr atom_dictionary = atom_dictionary from by decide]
  try dsimp only []
  rw [if_neg (by decide), if_neg (by decide), if_neg (by decide), if_pos (by decide)]
  rw [show eiDecodeLong (97 :: plen ps :: (encodePairs ps ++ rest))
      = .ok (Int.ofNat (plen ps)) (encodePairs ps ++ rest) from rfl]
  try dsimp only []
  rw [show (Int.ofNat (plen ps)).toNat = plen ps from rfl]
  rw [decPairs_encode fuel ps .nil rest hg hf]


/-! ## Claim theorems -/

/-- A sample value, the concrete scenario of the spec:
`List [Int64 1, Utf8String "x", Vector2(1.5, -2.0)]` with the vector
components as IEEE-754 double bit patterns. -/
def roundtripSample : EVariant :=
  .list (.cons (.int 1) (.cons (.str [120])
    (.cons (.vector2 4609434218613702656 13835058055282163712) .nil)))

/-- Claim C1, counterexample: the round-trip fails as stated.  Encoding the
empty `List` yields the two-byte form `[106, 106]` (`ei_encode_list_header`
emits the nil tag for arity 0, then the empty-list terminator follows), and
decoding that yields the `Null` variant with one byte left over — not the
empty `List`. -/
theorem C1_roundtrip_counterexample :
    variantToBert (EVariant.list EList.nil) = [106, 106] ∧
      decT 2 (variantToBert (EVariant.list EList.nil)) = Dec.ok EVariant.nil [106] ∧
      EVariant.nil ≠ EVariant.list EList.nil := by
  decide

/-- Claim C1 (amended): decoding the encoding returns the same value — with
floating-point components compared bitwise-exactly as their IEEE-754 double
patterns — for every `DynamicValue` built from `Null`, `Bool`, `Float64`,
`Vector2`, `Vector3`, `Color`, `Int64` within the wire's
`ERL_INTEGER_EXT` range `[-2^27, 2^27)`, `Utf8String` of 1..255 bytes with
no NUL byte, and non-empty `List`s of such values (`goodT`); the excluded
shapes — empty `List`, empty or over-long strings, `Map`, `ObjectRef`,
`Int64` beyond ±2^27 — decode to `Null` or an error instead. -/
theorem C1_roundtrip_amended (v : EVariant) (fuel : Nat)
    (hg : goodT v = true) (hf : needT v ≤ fuel) :
    decT fuel (variantToBert v) = Dec.ok v [] :=
  bert_roundtrip v fuel hg hf

/-- Claim C1 (amended), witness at the spec's concrete scenario value. -/
theorem C1_roundtrip_amended_witness :
    goodT roundtripSample = true ∧ needT roundtripSample ≤ 9 ∧
      decT 9 (variantToBert roundtripSample) = Dec.ok roundtripSample [] :=
  ⟨by decide, by decide, C1_roundtrip_amended roundtripSample 9 (by decide) (by decide)⟩

/-- Claim C2: the decoder is not fuzz-safe — `bert_to_variant` receives a
bare pointer with no length, and the `ei_decode_*` primitives read the type
byte, length fields and payload unconditionally, so an empty buffer, a
truncated string and a truncated tuple header all read past the end of the
supplied byte slice instead of returning a decode error. -/
theorem C2_decode_reads_out_of_bounds :
    bertToVariant 1 [] false = Dec.oob ∧
      bertToVariant 1 [131, 107, 0, 5] false = Dec.oob ∧
      decT 1 [104] = Dec.oob := by
  decide

/-- Claim C3, counterexample: the dedicated nil tag (`ERL_NIL_EXT`, byte
106) decodes to the `Null` variant — the code's own comment says "caller
should handle conversion to empty array if needed" — not to an empty
`List`. -/
theorem C3_nil_tag_counterexample :
    decT 1 [106] = Dec.ok EVariant.nil [] ∧
      EVariant.nil ≠ EVariant.list EList.nil := by
  decide

/-- Claim C3 (amended): of the two wire spellings of the empty list, the
explicit list header with zero arity (followed by its nil tail) decodes to
an empty `List`, while the dedicated nil tag decodes to `Null`. -/
theorem C3_empty_list_spellings_amended :
    decT 2 [108, 0, 0, 0, 0, 106] = Dec.ok (EVariant.list EList.nil) [] ∧
      decT 1 [106] = Dec.ok EVariant.nil [] := by
  decide

/-- Claim C9: if the peer's challenge-reply digest differs from
`digest(shared_secret || decimal(localChallenge))` — in particular when it
was computed with a different secret — the handshake ends `Rejected`: the
outputs are exactly the status frame and the challenge (never an
acknowledgment frame), frames after the bad reply are not processed, and
the `Authenticated` state is never reached. -/
theorem C9_wrong_secret_rejected (digestFn : List Nat → Nat → List Nat)
    (cfg : HsConfig) (v fl : Nat) (peer : List Nat) (d : List Nat) (tail : List HsIn)
    (hd : d ≠ digestFn cfg.secret cfg.localChallenge) :
    hsRun digestFn cfg .awaitingName (.name v fl peer :: .challengeReply d :: tail)
        = (.rejected, [.statusOk, .challenge cfg.localChallenge]) ∧
      (∀ o ∈ [HsOut.statusOk, HsOut.challenge cfg.localChallenge], o.isAck = false) ∧
      HandshakeState.rejected ≠ HandshakeState.authenticated := by
  refine ⟨?_, by simp [HsOut.isAck], by decide⟩
  rw [hsRun.eq_def]
  dsimp only []
  rw [if_neg (by decide)]
  rw [show hsStep digestFn cfg .awaitingName (.name v fl peer)
      = (.awaitingChallengeReply, [.statusOk, .challenge cfg.localChallenge]) from rfl]
  rw [hsRun.eq_def]
  dsimp only []
  rw [if_neg (by decide)]
  rw [show hsStep digestFn cfg .awaitingChallengeReply (.challengeReply d)
      = (.rejected, []) from by rw [hsStep, if_neg hd]]
  cases tail with
  | nil =>
    rw [hsRun.eq_def]
    simp
  | cons f fs =>
    rw [hsRun.eq_def]
    dsimp only []
    rw [if_pos (Or.inr rfl)]
    simp

/-- Claim C9, witness with a concrete digest function and a digest computed
from the wrong secret. -/
theorem C9_wrong_secret_rejected_witness :
    ([2, 7] : List Nat) ≠ (fun (s : List Nat) (c : Nat) => s ++ [c % 256]) [1] 7 ∧
      (hsRun (fun (s : List Nat) (c : Nat) => s ++ [c % 256]) ⟨[1], 7, 9⟩ .awaitingName
          [.name 6 0 [112], .challengeReply [2, 7]]
          = (.rejected, [.statusOk, .challenge 7]) ∧
        (∀ o ∈ [HsOut.statusOk, HsOut.challenge 7], o.isAck = false) ∧
        HandshakeState.rejected ≠ HandshakeState.authenticated) :=
  ⟨by decide,
    C9_wrong_secret_rejected (fun s c => s ++ [c % 256]) ⟨[1], 7, 9⟩ 6 0 [112] [2, 7] []
      (by decide)⟩


/-- A concrete host-object-model instance used by the witnesses: no objects
exist and every capability returns the NIL variant. -/
def testHost : Host :=
  ⟨fun _ => false, fun _ _ _ => .nil, fun _ _ => .nil, atom_godot⟩

/-- Claim C4: at the outermost decode of a frame (`process_message`), a
leading version marker byte is optional — a frame with the marker is
processed exactly like the same frame without it (the marker is skipped
silently), including the degenerate empty frame; and nested decodes
(`bert_to_variant` with `skip_version = true`, as used for list and tuple
members) do not expect a version marker: a version byte there is an
ordinary decode error. -/
theorem C4_version_marker_optional (host : Host) (fuel : Nat) (bs : List Nat)
    (h : bs.head? ≠ some 131) :
    processMessage host fuel (131 :: bs) = processMessage host fuel bs ∧
      (∀ rest : List Nat, decT (fuel + 1) (131 :: rest) = Dec.err (131 :: rest)) := by
  constructor
  · have hlhs : processMessage host fuel (131 :: bs) = processBody host fuel bs := by
      unfold processMessage
      rw [show eiDecodeVersion (131 :: bs) = .ok () bs from rfl]
    cases bs with
    | nil =>
      rw [hlhs]
      rfl
    | cons b t =>
      have hb : b ≠ 131 := by simpa using h
      rw [hlhs, processMessage_eq_body host fuel b t hb]
  · intro rest
    rw [decT]
    rfl

/-- Claim C4, witness on a concrete frame. -/
theorem C4_version_marker_optional_witness :
    ([104, 2] : List Nat).head? ≠ some 131 ∧
      (processMessage testHost 1 (131 :: [104, 2]) = processMessage testHost 1 [104, 2] ∧
        (∀ rest : List Nat, decT (1 + 1) (131 :: rest) = Dec.err (131 :: rest))) :=
  ⟨by decide, C4_version_marker_optional testHost 1 [104, 2] (by decide)⟩

/-- Claim C7: processing an asynchronous cast frame writes zero reply bytes
back on the connection — every successful `process_message` run on a
`$gen_cast` frame produces an empty reply list — and a dispatch error never
fails the connection: any cast whose `{Module, Function}` decodes returns
status 0 (regardless of the host's dispatch outcome, unknown modules and
functions included), and the single-step driver closes only on negative
status. -/
theorem C7_cast_no_reply :
    (∀ (host : Host) (fuel : Nat) (req : List Nat) (st : Int) (rs : List ReplyFrame),
        processMessage host fuel (mkGenCastFrame req) = .ok st rs → rs = []) ∧
      (∀ (host : Host) (fuel : Nat) (m f : List Nat), cstr m = m → cstr f = f →
        processMessage host fuel
            (mkGenCastFrame (eiEncodeTupleHeader 2 ++ eiEncodeAtom m ++ eiEncodeAtom f))
          = .ok 0 [] ∧ stepClosesConnection 0 = false) := by
  have hfrm : ∀ req : List Nat,
      mkGenCastFrame req = 104 :: 2 :: (eiEncodeAtom atom_dollar_gen_cast ++ req) := by
    intro req
    simp [mkGenCastFrame, eiEncodeTupleHeader]
  have hpm : ∀ (host : Host) (fuel : Nat) (req : List Nat),
      processMessage host fuel (mkGenCastFrame req)
        = processBody host fuel (mkGenCastFrame req) := by
    intro host fuel req
    rw [hfrm req]
    exact processMessage_eq_body host fuel 104 _ (by decide)
  constructor
  · intro host fuel req st rs h
    rw [hpm, processBody_gen_cast] at h
    cases hc : handleCast fuel req with
    | ok st2 =>
      rw [hc] at h
      injection h with h1 h2
      exact h2.symm
    | oob => rw [hc] at h; exact PMRes.noConfusion h
    | ub => rw [hc] at h; exact PMRes.noConfusion h
    | nofuel => rw [hc] at h; exact PMRes.noConfusion h
  · intro host fuel m f hm hf
    refine ⟨?_, by decide⟩
    rw [hpm, processBody_gen_cast]
    have hcast : handleCast fuel (eiEncodeTupleHeader 2 ++ eiEncodeAtom m ++ eiEncodeAtom f)
        = .ok 0 := by
      unfold handleCast
      simp only [List.append_assoc]
      rw [eiDecodeTupleHeader_small 2 _ (by decide)]
      try dsimp only []
      rw [if_neg (by decide)]
      rw [eiDecodeAtom_encode, hm]
      try dsimp only []
      rw [show eiEncodeAtom f = eiEncodeAtom f ++ [] from (List.append_nil _).symm]
      rw [eiDecodeAtom_encode, hf]
      try dsimp only []
      rw [if_pos (by decide)]
    rw [hcast]

/-- Claim C7, witness: a concrete cast with an unknown module writes no
reply and does not close the connection. -/
theorem C7_cast_no_reply_witness :
    cstr [109] = [109] ∧ cstr [102] = [102] ∧
      (processMessage testHost 1
          (mkGenCastFrame (eiEncodeTupleHeader 2 ++ eiEncodeAtom [109] ++ eiEncodeAtom [102]))
        = .ok 0 [] ∧ stepClosesConnection 0 = false) :=
  ⟨by decide, by decide, C7_cast_no_reply.2 testHost 1 [109] [102] (by decide) (by decide)⟩


/-- A concrete sender PID used by the witnesses. -/
def samplePid : ErlangPid := ⟨[110], 1, 2, 3⟩

/-- A concrete reply tag used by the witnesses. -/
def sampleRef : ErlangRef := ⟨[110], 4, [5]⟩

/-- A concrete Request `{t, p}` (unknown module) used by the witnesses. -/
def sampleCallReq : List Nat :=
  eiEncodeTupleHeader 2 ++ eiEncodeAtom [116] ++ eiEncodeAtom [112]

/-- Claim C6: every synchronous call frame whose sender/reply pair decodes
produces, on any successful `process_message` run, exactly one reply frame;
that frame is addressed to the decoded sender PID exactly as received, and
its bytes are a fresh version marker followed by the pair
`{reply_token, result_or_error}` — the echoed tag reference first, then the
dispatch result or error payload. -/
theorem C6_call_reply_correlation (host : Host) (fuel : Nat) (p : ErlangPid)
    (r : ErlangRef) (req : List Nat) (st : Int) (rs : List ReplyFrame)
    (hp : wfPid p = true) (hr : wfRef r = true)
    (h : processMessage host fuel (mkGenCallFrame p r req) = .ok st rs) :
    ∃ payload, rs = [(p, 131 :: (eiEncodeTupleHeader 2 ++ eiEncodeRef r ++ payload))] := by
  have hfrm : mkGenCallFrame p r req = 104 :: 3 :: (eiEncodeAtom atom_dollar_gen_call ++
      (eiEncodeTupleHeader 2 ++ (eiEncodePid p ++ (eiEncodeRef r ++ req)))) := by
    simp [mkGenCallFrame, eiEncodeTupleHeader]
  rw [hfrm, processMessage_eq_body host fuel 104 _ (by decide), ← hfrm,
    processBody_gen_call host fuel p r req hp hr] at h
  cases hc : handleCall host fuel req p r with
  | ok st2 rs2 =>
    rw [hc] at h
    injection h with h1 h2
    subst h2
    exact handleCall_replies host fuel req p r st2 rs2 hc
  | oob => rw [hc] at h; exact PMRes.noConfusion h
  | ub => rw [hc] at h; exact PMRes.noConfusion h
  | nofuel => rw [hc] at h; exact PMRes.noConfusion h

/-- Claim C6, witness: a concrete call frame whose reply is the single
correctly-tagged error reply. -/
theorem C6_call_reply_correlation_witness :
    wfPid samplePid = true ∧ wfRef sampleRef = true ∧
      processMessage testHost 1 (mkGenCallFrame samplePid sampleRef sampleCallReq)
        = .ok 0 [sendReply (errReply atom_unknown_module) samplePid sampleRef] ∧
      ∃ payload,
        [sendReply (errReply atom_unknown_module) samplePid sampleRef]
          = [(samplePid, 131 :: (eiEncodeTupleHeader 2 ++ eiEncodeRef sampleRef ++ payload))] :=
  ⟨by decide, by decide, by decide,
    C6_call_reply_correlation testHost 1 samplePid sampleRef sampleCallReq 0
      [sendReply (errReply atom_unknown_module) samplePid sampleRef]
      (by decide) (by decide) (by decide)⟩


lemma processMessage_rexInner (host : Host) (fuel : Nat) (relay : ErlangPid)
    (inner : List Nat) :
    processMessage host fuel (mkRexInnerFrame relay inner)
      = processBody host fuel (mkRexInnerFrame relay inner) := by
  have hfrm : mkRexInnerFrame relay inner
      = 104 :: 3 :: (eiEncodeAtom atom_rex ++ (eiEncodePid relay ++ inner)) := by
    simp [mkRexInnerFrame, eiEncodeTupleHeader]
  rw [hfrm]
  exact processMessage_eq_body host fuel 104 _ (by decide)

lemma processBody_rex_not_call (host : Host) (fuel : Nat) (relay : ErlangPid)
    (a inner : List Nat) (hrelay : wfPid relay = true)
    (ha : cstr a = a) (hne : a ≠ atom_dollar_gen_call) :
    processBody host fuel
        (mkRexInnerFrame relay (eiEncodeTupleHeader 3 ++ eiEncodeAtom a ++ inner))
      = .ok (-1) [] := by
  unfold processBody mkRexInnerFrame
  simp only [List.append_assoc]
  rw [eiDecodeTupleHeader_small 3 _ (by decide)]
  try dsimp only []
  rw [eiDecodeAtom_encode]
  rw [show cstr atom_rex = atom_rex from by decide]
  try dsimp only []
  rw [if_neg (by decide), if_neg (by decide), if_pos rfl]
  rw [eiDecodePid_encode relay _ hrelay]
  try dsimp only []
  rw [eiDecodeTupleHeader_small 3 _ (by decide)]
  try dsimp only []
  rw [eiDecodeAtom_encode, ha]
  try dsimp only []
  rw [if_neg hne]

/-- Claim C8: a `rex` relay frame is unwrapped exactly one layer — the
envelope is `{rex, relay_sender, inner}` and `inner` must itself be a
`$gen_call` shape, otherwise processing fails with no reply; on success the
single reply is addressed with the inner sender/reply-token pair, and the
relay envelope's own sender is irrelevant: replacing it changes nothing. -/
theorem C8_rex_unwrap (host : Host) (fuel : Nat) (relay relay2 p : ErlangPid)
    (r : ErlangRef) (req : List Nat) (st : Int) (rs : List ReplyFrame)
    (hrelay : wfPid relay = true) (hrelay2 : wfPid relay2 = true)
    (hp : wfPid p = true) (hr : wfRef r = true)
    (h : processMessage host fuel (mkRexFrame relay p r req) = .ok st rs) :
    (∃ payload, rs = [(p, 131 :: (eiEncodeTupleHeader 2 ++ eiEncodeRef r ++ payload))]) ∧
      processMessage host fuel (mkRexFrame relay2 p r req) = .ok st rs ∧
      (∀ a inner, cstr a = a → a ≠ atom_dollar_gen_call →
        processMessage host fuel
            (mkRexInnerFrame relay (eiEncodeTupleHeader 3 ++ eiEncodeAtom a ++ inner))
          = .ok (-1) []) := by
  rw [show mkRexFrame relay p r req = mkRexInnerFrame relay _ from rfl,
    processMessage_rexInner, ← show mkRexFrame relay p r req = mkRexInnerFrame relay _ from rfl,
    processBody_rex host fuel relay p r req hrelay hp hr] at h
  refine ⟨?_, ?_, ?_⟩
  · cases hc : handleCall host fuel req p r with
    | ok st2 rs2 =>
      rw [hc] at h
      injection h with h1 h2
      subst h2
      exact handleCall_replies host fuel req p r st2 rs2 hc
    | oob => rw [hc] at h; exact PMRes.noConfusion h
    | ub => rw [hc] at h; exact PMRes.noConfusion h
    | nofuel => rw [hc] at h; exact PMRes.noConfusion h
  · rw [show mkRexFrame relay2 p r req = mkRexInnerFrame relay2 _ from rfl,
      processMessage_rexInner, ← show mkRexFrame relay2 p r req = mkRexInnerFrame relay2 _ from rfl,
      processBody_rex host fuel relay2 p r req hrelay2 hp hr]
    exact h
  · intro a inner ha hne
    rw [processMessage_rexInner]
    exact processBody_rex_not_call host fuel relay a inner hrelay ha hne

/-- Claim C8, witness: a concrete relayed call replied to the inner sender,
unchanged under a different relay sender, with a non-call inner shape
rejected without a reply. -/
theorem C8_rex_unwrap_witness :
    wfPid (⟨[113], 9, 9, 9⟩ : ErlangPid) = true ∧ wfPid (⟨[114], 8, 8, 8⟩ : ErlangPid) = true ∧
      wfPid samplePid = true ∧ wfRef sampleRef = true ∧
      ((∃ payload,
          [sendReply (errReply atom_unknown_module) samplePid sampleRef]
            = [(samplePid, 131 :: (eiEncodeTupleHeader 2 ++ eiEncodeRef sampleRef ++ payload))]) ∧
        processMessage testHost 1 (mkRexFrame ⟨[114], 8, 8, 8⟩ samplePid sampleRef sampleCallReq)
          = .ok 0 [sendReply (errReply atom_unknown_module) samplePid sampleRef] ∧
        (∀ a inner, cstr a = a → a ≠ atom_dollar_gen_call →
          processMessage testHost 1
              (mkRexInnerFrame ⟨[113], 9, 9, 9⟩ (eiEncodeTupleHeader 3 ++ eiEncodeAtom a ++ inner))
            = .ok (-1) [])) :=
  ⟨by decide, by decide, by decide, by decide,
    C8_rex_unwrap testHost 1 ⟨[113], 9, 9, 9⟩ ⟨[114], 8, 8, 8⟩ samplePid sampleRef
      sampleCallReq 0 [sendReply (errReply atom_unknown_module) samplePid sampleRef]
      (by decide) (by decide) (by decide) (by decide) (by decide)⟩


/-- Claim C10: once the sender/reply pair has decoded, the call handler
sends exactly one reply frame on every in-bounds control path and never
closes the connection itself (it only returns a status); in particular a
malformed Request (not a tuple), an unknown module, an unknown function of
the godot module, and a `call_method` on a missing object are each answered
with the corresponding `{error, Reason}` reply rather than silence. -/
theorem C10_call_error_paths (host : Host) (fuel : Nat) (p : ErlangPid) (r : ErlangRef) :
    (∀ buf st rs, handleCall host fuel buf p r = .ok st rs → rs.length = 1) ∧
      handleCall host fuel (eiEncodeAtom atom_nil) p r
        = .ok (-1) [sendReply (errReply atom_invalid_request_format) p r] ∧
      (∀ m f, cstr m = m → cstr f = f → m ≠ atom_godot → m ≠ atom_erlang →
        handleCall host fuel (eiEncodeTupleHeader 2 ++ eiEncodeAtom m ++ eiEncodeAtom f) p r
          = .ok 0 [sendReply (errReply atom_unknown_module) p r]) ∧
      (∀ f2, cstr f2 = f2 → f2 ≠ atom_call_method → f2 ≠ atom_get_property →
        f2 ≠ atom_set_property →
        handleCall host fuel
            (eiEncodeTupleHeader 2 ++ eiEncodeAtom atom_godot ++ eiEncodeAtom f2) p r
          = .ok 0 [sendReply (errReply atom_unknown_function) p r]) ∧
      (∀ (objId : Int) (mname : List Nat) (fuel2 : Nat),
        host.objectExists objId = false →
        goodT (.list (.cons (.int objId) (.cons (.str mname) .nil))) = true →
        needT (.list (.cons (.int objId) (.cons (.str mname) .nil))) ≤ fuel2 →
        handleCall host fuel2
            (eiEncodeTupleHeader 3 ++ eiEncodeAtom atom_godot ++ eiEncodeAtom atom_call_method
              ++ variantToBert (.list (.cons (.int objId) (.cons (.str mname) .nil)))) p r
          = .ok 0 [sendReply (errReply atom_object_not_found) p r]) := by
  refine ⟨?_, ?_, ?_, ?_, ?_⟩
  · intro buf st rs h
    obtain ⟨pl, hpl⟩ := handleCall_replies host fuel buf p r st rs h
    simp [hpl]
  · rfl
  · intro m f hm hf hm1 hm2
    unfold handleCall
    simp only [List.append_assoc]
    rw [eiDecodeTupleHeader_small 2 _ (by decide)]
    try dsimp only []
    rw [if_neg (by decide)]
    rw [eiDecodeAtom_encode, hm]
    try dsimp only []
    rw [show eiEncodeAtom f = eiEncodeAtom f ++ [] from (List.append_nil _).symm]
    rw [eiDecodeAtom_encode, hf]
    try dsimp only []
    rw [if_pos (by decide)]
    unfold dispatch
    rw [if_neg hm1, if_neg hm2]
  · intro f2 hf2 h1 h2 h3
    unfold handleCall
    simp only [List.append_assoc]
    rw [eiDecodeTupleHeader_small 2 _ (by decide)]
    try dsimp only []
    rw [if_neg (by decide)]
    rw [eiDecodeAtom_encode]
    rw [show cstr atom_godot = atom_godot from by decide]
    try dsimp only []
    rw [show eiEncodeAtom f2 = eiEncodeAtom f2 ++ [] from (List.append_nil _).symm]
    rw [eiDecodeAtom_encode, hf2]
    try dsimp only []
    rw [if_pos (by decide)]
    unfold dispatch
    rw [if_pos rfl, if_neg h1, if_neg h2, if_neg h3]
  · intro objId mname fuel2 hex hg hneed
    unfold handleCall
    simp only [List.append_assoc]
    rw [eiDecodeTupleHeader_small 3 _ (by decide)]
    try dsimp only []
    rw [if_neg (by decide)]
    rw [eiDecodeAtom_encode]
    rw [show cstr atom_godot = atom_godot from by decide]
    try dsimp only []
    rw [eiDecodeAtom_encode]
    rw [show cstr atom_call_method = atom_call_method from by decide]
    try dsimp only []
    rw [if_neg (by decide)]
    rw [bert_roundtrip _ fuel2 hg hneed]
    try dsimp only []
    rw [show toArgs (EVariant.list (.cons (.int objId) (.cons (.str mname) .nil)))
        = .cons (.int objId) (.cons (.str mname) .nil) from rfl]
    unfold dispatch
    rw [if_pos rfl, if_pos rfl]
    rw [if_pos (by simp [elen])]
    simp only [elGet, variantToInt]
    rw [hex]
    try dsimp only []
    rfl

/-- Claim C10, witness covering each error path at concrete inputs. -/
theorem C10_call_error_paths_witness :
    cstr [109] = [109] ∧ cstr [102] = [102] ∧
      testHost.objectExists 7 = false ∧
      goodT (.list (.cons (.int 7) (.cons (.str [109]) .nil))) = true ∧
      needT (.list (.cons (.int 7) (.cons (.str [109]) .nil))) ≤ 9 ∧
      handleCall testHost 1 (eiEncodeAtom atom_nil) samplePid sampleRef
        = .ok (-1) [sendReply (errReply atom_invalid_request_format) samplePid sampleRef] ∧
      [sendReply (errReply atom_invalid_request_format) samplePid sampleRef].length = 1 ∧
      handleCall testHost 1
          (eiEncodeTupleHeader 2 ++ eiEncodeAtom [109] ++ eiEncodeAtom [102]) samplePid sampleRef
        = .ok 0 [sendReply (errReply atom_unknown_module) samplePid sampleRef] ∧
      handleCall testHost 1
          (eiEncodeTupleHeader 2 ++ eiEncodeAtom atom_godot ++ eiEncodeAtom [102])
          samplePid sampleRef
        = .ok 0 [sendReply (errReply atom_unknown_function) samplePid sampleRef] ∧
      handleCall testHost 9
          (eiEncodeTupleHeader 3 ++ eiEncodeAtom atom_godot ++ eiEncodeAtom atom_call_method
            ++ variantToBert (.list (.cons (.int 7) (.cons (.str [109]) .nil))))
          samplePid sampleRef
        = .ok 0 [sendReply (errReply atom_object_not_found) samplePid sampleRef] := by
  have hc := C10_call_error_paths testHost 1 samplePid sampleRef
  have hc9 := C10_call_error_paths testHost 9 samplePid sampleRef
  refine ⟨by decide, by decide, by decide, by decide, by decide, hc.2.1, ?_, ?_, ?_, ?_⟩
  · exact hc.1 (eiEncodeAtom atom_nil) (-1)
      [sendReply (errReply atom_invalid_request_format) samplePid sampleRef] hc.2.1
  · exact hc.2.2.1 [109] [102] (by decide) (by decide) (by decide) (by decide)
  · exact hc.2.2.2.1 [102] (by decide) (by decide) (by decide) (by decide)
  · exact hc9.2.2.2.2 7 [109] 9 (by decide) (by decide) (by decide)


/-- Claim C5: a decoded tuple headed by the marker atom `vector2` with
arity 3, `vector3` with arity 4, or `color` with arity 5 (component doubles
following) decodes to the corresponding tagged record; a tuple headed by
the `dictionary` marker with arity 2 decodes to a `Map` by reading the
count and then that many key/value pairs; and a tuple whose first element
is any other atom/arity combination is a decode error. -/
theorem C5_tuple_marker_decode (fuel : Nat) :
    (∀ (x y : Nat) (rest : List Nat),
      x < 18446744073709551616 → y < 18446744073709551616 →
      decT (fuel + 1) ((eiEncodeTupleHeader 3 ++ eiEncodeAtom atom_vector2 ++
        eiEncodeDouble x ++ eiEncodeDouble y) ++ rest) = .ok (.vector2 x y) rest) ∧
      (∀ (x y z : Nat) (rest : List Nat),
        x < 18446744073709551616 → y < 18446744073709551616 → z < 18446744073709551616 →
        decT (fuel + 1) ((eiEncodeTupleHeader 4 ++ eiEncodeAtom atom_vector3 ++
          eiEncodeDouble x ++ eiEncodeDouble y ++ eiEncodeDouble z) ++ rest)
          = .ok (.vector3 x y z) rest) ∧
      (∀ (r g b a : Nat) (rest : List Nat),
        r < 18446744073709551616 → g < 18446744073709551616 →
        b < 18446744073709551616 → a < 18446744073709551616 →
        decT (fuel + 1) ((eiEncodeTupleHeader 5 ++ eiEncodeAtom atom_color ++
          eiEncodeDouble r ++ eiEncodeDouble g ++ eiEncodeDouble b ++ eiEncodeDouble a)
          ++ rest) = .ok (.color r g b a) rest) ∧
      (∀ (ps : EPairs) (rest : List Nat),
        goodP ps = true → plen ps ≤ 255 → needP ps ≤ fuel →
        decT (fuel + 1) ((eiEncodeTupleHeader 2 ++ eiEncodeAtom atom_dictionary
          ++ [97, plen ps]) ++ encodePairs ps ++ rest)
          = .ok (.dict (dictAccum .nil ps)) rest) ∧
      (∀ (arity : Nat) (hd rest : List Nat), 0 < arity → arity ≤ 255 → cstr hd = hd →
        ¬(hd = atom_vector2 ∧ arity = 3) → ¬(hd = atom_vector3 ∧ arity = 4) →
        ¬(hd = atom_color ∧ arity = 5) → ¬(hd = atom_dictionary ∧ arity = 2) →
        decT (fuel + 1) ((eiEncodeTupleHeader arity ++ eiEncodeAtom hd) ++ rest)
          = .err rest) := by
  refine ⟨?_, ?_, ?_, ?_, ?_⟩
  · intro x y rest hx hy
    exact dec_enc_vec2 fuel x y rest hx hy
  · intro x y z rest hx hy hz
    exact dec_enc_vec3 fuel x y z rest hx hy hz
  · intro r g b a rest hr hg hb ha
    exact dec_enc_color fuel r g b a rest hr hg hb ha
  · intro ps rest hg hlen hf
    exact dec_enc_dict fuel ps rest hg hlen hf
  · intro arity hd rest harity h255 hcstr h1 h2 h3 h4
    simp only [List.append_assoc]
    rw [decT_tyTuple fuel _ _ 104 (eiGetType_tuple_small arity _ h255) (Or.inl rfl)]
    rw [eiDecodeTupleHeader_small arity _ h255]
    try dsimp only []
    rw [if_neg (by omega)]
    rw [eiDecodeAtom_encode, hcstr]
    try dsimp only []
    rw [if_neg h1, if_neg h2, if_neg h3, if_neg h4]

/-- Claim C5, witness instantiating each tuple shape. -/
theorem C5_tuple_marker_decode_witness :
    decT (2 + 1) ((eiEncodeTupleHeader 3 ++ eiEncodeAtom atom_vector2 ++
        eiEncodeDouble 0 ++ eiEncodeDouble 1) ++ []) = .ok (.vector2 0 1) [] ∧
      decT (2 + 1) ((eiEncodeTupleHeader 4 ++ eiEncodeAtom atom_vector3 ++
        eiEncodeDouble 0 ++ eiEncodeDouble 1 ++ eiEncodeDouble 2) ++ [])
        = .ok (.vector3 0 1 2) [] ∧
      decT (2 + 1) ((eiEncodeTupleHeader 5 ++ eiEncodeAtom atom_color ++
        eiEncodeDouble 0 ++ eiEncodeDouble 1 ++ eiEncodeDouble 2 ++ eiEncodeDouble 3)
        ++ []) = .ok (.color 0 1 2 3) [] ∧
      decT (2 + 1) ((eiEncodeTupleHeader 2 ++ eiEncodeAtom atom_dictionary
          ++ [97, plen (.cons (.int 5) (.int 6) .nil)])
          ++ encodePairs (.cons (.int 5) (.int 6) .nil) ++ [])
        = .ok (.dict (dictAccum .nil (.cons (.int 5) (.int 6) .nil))) [] ∧
      decT (2 + 1) ((eiEncodeTupleHeader 2 ++ eiEncodeAtom [111, 107]) ++ [97, 3])
        = .err [97, 3] :=
  have hc := C5_tuple_marker_decode 2
  ⟨hc.1 0 1 [] (by decide) (by decide),
    hc.2.1 0 1 2 [] (by decide) (by decide) (by decide),
    hc.2.2.1 0 1 2 3 [] (by decide) (by decide) (by decide) (by decide),
    hc.2.2.2.1 (.cons (.int 5) (.int 6) .nil) [] (by decide) (by decide) (by decide),
    hc.2.2.2.2 2 [111, 107] [97, 3] (by decide) (by decide) (by decide)
      (by decide) (by decide) (by decide) (by decide)⟩

end GodotCNode
